import Mathlib

/-!
Shallow embedding of the citation/bibliography cross-reference validation core
(`src/lib/components/crv/`): the citation extractor (`extract_citations.py`),
the bibliography processor (`process_bibliography.py`) and the reference
validator (`validate_references.py`), together with the parts of the Python
standard library they rely on (`difflib.SequenceMatcher.ratio`, `hashlib.md5`,
string methods).  Python floats are modelled as exact rationals (`ℚ`,
constructed with `mkRat` so that all similarity scores are kernel-computable);
Python strings are Lean `String`s manipulated through their character lists;
Python dicts whose keys are fixed field names are modelled as structures, with
the falsiness conventions (`None`, `''`, `[]` are falsy) reproduced explicitly
at each use site.  All recursion is structural so every definition evaluates
by kernel reduction.
-/

set_option maxRecDepth 100000

namespace CRV

/-! ## Python string primitives

`pyIsSpace` models the character class `\s` / `str.strip` for the ASCII
whitespace characters (space, tab, newline, carriage return, vertical tab,
form feed), which are the only whitespace characters the pipeline's inputs
contain after NFKC normalization (NFKC maps U+00A0 to a plain space). -/

def pyIsSpace (c : Char) : Bool :=
  c = ' ' || c = '\t' || c = '\n' || c = '\r' ||
  c = Char.ofNat 11 || c = Char.ofNat 12

/-- Model of `unicodedata.normalize('NFKC', ·)` at the character level.
NFKC is the identity on ASCII and on the precomposed Latin-1 letters
(e.g. `é`, `Ñ`) that appear in the corpus; the one compatibility character
relevant here is the no-break space U+00A0, which NFKC maps to a space. -/
def nfkcChar (c : Char) : Char :=
  if c = Char.ofNat 0xA0 then ' ' else c

/-- Model of `str.lower()` on ASCII letters and precomposed Latin-1 capitals
(U+00C0–U+00DE except the multiplication sign U+00D7 map to the code point
32 higher, exactly as in Python). -/
def pyLowerChar (c : Char) : Char :=
  if 'A' ≤ c ∧ c ≤ 'Z' then Char.ofNat (c.toNat + 32)
  else if 0xC0 ≤ c.toNat ∧ c.toNat ≤ 0xDE ∧ c.toNat ≠ 0xD7 then Char.ofNat (c.toNat + 32)
  else c

/-- Worker for `collapseWS`; the flag records whether we are inside a
whitespace run whose replacement space has already been emitted. -/
def collapseWSGo : List Char → Bool → List Char
  | [], _ => []
  | c :: cs, inRun =>
    if pyIsSpace c then
      if inRun then collapseWSGo cs true else ' ' :: collapseWSGo cs true
    else c :: collapseWSGo cs false

/-- `re.sub(r'\s+', ' ', ·)`: replace every maximal run of whitespace by a
single space. -/
def collapseWS (l : List Char) : List Char := collapseWSGo l false

/-- `re.sub(r'[–—−]', '-', ·)`: en dash, em dash and minus sign become `-`. -/
def dashChar (c : Char) : Char :=
  if c = Char.ofNat 0x2013 ∨ c = Char.ofNat 0x2014 ∨ c = Char.ofNat 0x2212 then '-' else c

/-- `str.strip()`. -/
def stripList (l : List Char) : List Char :=
  ((l.dropWhile pyIsSpace).reverse.dropWhile pyIsSpace).reverse

def pyStrip (s : String) : String := ⟨stripList s.data⟩

/-- `ReferenceValidator._normalize_text`: NFKC-normalize, collapse whitespace,
unify dashes, strip and lowercase. -/
def normalizeV (s : String) : String :=
  ⟨(stripList (collapseWS (s.data.map nfkcChar) |>.map dashChar)).map pyLowerChar⟩

/-- `str.lower()` on a whole string. -/
def pyLower (s : String) : String := ⟨s.data.map pyLowerChar⟩

/-- `sub in s` (Python substring containment): some split `s = pre ++ sub ++ post`. -/
def listContainsSub (s sub : List Char) : Bool :=
  (List.range (s.length + 1)).any fun i => decide ((s.drop i).take sub.length = sub)

def containsSub (s sub : String) : Bool := listContainsSub s.data sub.data

def strStartsWith (s pre : String) : Bool := decide (s.data.take pre.data.length = pre.data)

/-- `s[:n]` (String slices here are over ASCII hex digests, so a character
slice is exact). -/
def strTake (s : String) (n : Nat) : String := ⟨s.data.take n⟩

def strEndsWith (s post : String) : Bool :=
  decide (post.data.length ≤ s.data.length) &&
  decide (s.data.drop (s.data.length - post.data.length) = post.data)

/-! ## `difflib.SequenceMatcher` (no junk; autojunk is inert for the short
strings compared here, since it only activates when the second sequence has
at least 200 elements).

`b2jPos` models the `b2j` table: the ascending list of positions of a
character in `b`.  `findLongestMatch` is `find_longest_match` restricted to
the no-junk case (the junk extension loops are no-ops), with the dictionary
`j2len` modelled as a total function defaulting to 0.  `matchTotal` is the
sum of the sizes of all matching blocks produced by `get_matching_blocks`'
divide-and-conquer; it recurses on a fuel bounded by the total interval size
(each recursive call strictly shrinks its interval, so the fuel never runs
out for the top-level call). -/

def b2jPos (b : List Char) (c : Char) : List Nat :=
  (List.range b.length).filter fun j => b.getD j (Char.ofNat 0) = c

/-- The inner loop of `find_longest_match` for one index `i` of `a`:
fold over the (ascending, range-restricted) positions of `a[i]` in `b`,
building the new run-length table and updating the best block.
State: (new `j2len` table, (besti, bestj, bestsize)). -/
def flmInner (j2lenOld : Nat → Nat) (i : Nat) (js : List Nat)
    (st : (Nat → Nat) × (Nat × Nat × Nat)) : (Nat → Nat) × (Nat × Nat × Nat) :=
  js.foldl (fun st2 j =>
    let k := (if j = 0 then 0 else j2lenOld (j - 1)) + 1
    let nj : Nat → Nat := fun j' => if j' = j then k else st2.1 j'
    let best := if st2.2.2.2 < k then (i + 1 - k, j + 1 - k, k) else st2.2
    (nj, best)) st

/-- `SequenceMatcher.find_longest_match(alo, ahi, blo, bhi)` (queue-free,
junk-free form).  Returns `(besti, bestj, bestsize)`. -/
def findLongestMatch (a b : List Char) (alo ahi blo bhi : Nat) : Nat × Nat × Nat :=
  let st := (List.range' alo (ahi - alo)).foldl
    (fun (st : (Nat → Nat) × (Nat × Nat × Nat)) i =>
      let js := (b2jPos b (a.getD i (Char.ofNat 0))).filter
        fun j => decide (blo ≤ j) && decide (j < bhi)
      flmInner st.1 i js ((fun _ => 0), st.2))
    ((fun _ => 0), (alo, blo, 0))
  st.2

/-- Total size of all matching blocks on `[alo,ahi) × [blo,bhi)`:
the recursion of `get_matching_blocks`, keeping only the sum of sizes
(which is all `ratio` uses).  The fuel argument only serves structural
termination; `ahi - alo + (bhi - blo) + 1` is always sufficient because each
recursive call strictly decreases the total interval size. -/
def matchTotalGo (a b : List Char) : Nat → Nat → Nat → Nat → Nat → Nat
  | 0, _, _, _, _ => 0
  | fuel + 1, alo, ahi, blo, bhi =>
    let r := findLongestMatch a b alo ahi blo bhi
    let i := r.1
    let j := r.2.1
    let k := r.2.2
    if k = 0 then 0
    else k + matchTotalGo a b fuel alo i blo j + matchTotalGo a b fuel (i + k) ahi (j + k) bhi

def matchTotal (a b : List Char) : Nat :=
  matchTotalGo a b (a.length + b.length + 1) 0 a.length 0 b.length

/-- `SequenceMatcher.ratio()`: `2*M / (len(a)+len(b))`, and 1.0 when both are
empty (the `if length: ... else 1.0` branch of `_calculate_ratio`). -/
def ratioQ (a b : List Char) : ℚ :=
  if a.length + b.length = 0 then 1
  else mkRat (2 * matchTotal a b) (a.length + b.length)

/-- `ReferenceValidator._calculate_similarity`: normalize both strings and
take the `SequenceMatcher` ratio. -/
def calcSimilarity (s t : String) : ℚ :=
  ratioQ (normalizeV s).data (normalizeV t).data

/-! ## `hashlib.md5` and `str.encode()`

Both the extractor and the bibliography processor derive their stable ids
from `hashlib.md5(content.encode()).hexdigest()[:12]`.  The hash is
implemented here directly on `Nat` with explicit `% 2^32` wraparound;
bitwise operations use a 32-step structural recursion so that every digest
is kernel-computable. -/

/-- UTF-8 encoding of one character (`str.encode()` is UTF-8). -/
def utf8Char (c : Char) : List Nat :=
  let v := c.toNat
  if v < 0x80 then [v]
  else if v < 0x800 then [0xC0 + v / 64, 0x80 + v % 64]
  else if v < 0x10000 then
    [0xE0 + v / 4096, 0x80 + v / 64 % 64, 0x80 + v % 64]
  else
    [0xF0 + v / 262144, 0x80 + v / 4096 % 64, 0x80 + v / 64 % 64, 0x80 + v % 64]

def utf8Bytes (s : String) : List Nat := s.data.flatMap utf8Char

/-- Bitwise combination of the low `n` bits of two naturals. -/
def bitsCombine (f : Bool → Bool → Bool) : Nat → Nat → Nat → Nat
  | 0, _, _ => 0
  | n + 1, x, y =>
    (if f (x % 2 = 1) (y % 2 = 1) then 1 else 0) + 2 * bitsCombine f n (x / 2) (y / 2)

def and32 (x y : Nat) : Nat := bitsCombine (· && ·) 32 x y
def or32 (x y : Nat) : Nat := bitsCombine (· || ·) 32 x y
def xor32 (x y : Nat) : Nat := bitsCombine (fun a b => a ≠ b) 32 x y
def not32 (x : Nat) : Nat := 0xFFFFFFFF - x % 2 ^ 32
def rotl32 (x n : Nat) : Nat := (x * 2 ^ n + x / 2 ^ (32 - n)) % 2 ^ 32

def md5K : List Nat :=
  [3614090360, 3905402710, 606105819, 3250441966, 4118548399, 1200080426, 2821735955, 4249261313,
   1770035416, 2336552879, 4294925233, 2304563134, 1804603682, 4254626195, 2792965006, 1236535329,
   4129170786, 3225465664, 643717713, 3921069994, 3593408605, 38016083, 3634488961, 3889429448,
   568446438, 3275163606, 4107603335, 1163531501, 2850285829, 4243563512, 1735328473, 2368359562,
   4294588738, 2272392833, 1839030562, 4259657740, 2763975236, 1272893353, 4139469664, 3200236656,
   681279174, 3936430074, 3572445317, 76029189, 3654602809, 3873151461, 530742520, 3299628645,
   4096336452, 1126891415, 2878612391, 4237533241, 1700485571, 2399980690, 4293915773, 2240044497,
   1873313359, 4264355552, 2734768916, 1309151649, 4149444226, 3174756917, 718787259, 3951481745]

def md5S : List Nat :=
  [7, 12, 17, 22, 7, 12, 17, 22, 7, 12, 17, 22, 7, 12, 17, 22,
   5, 9, 14, 20, 5, 9, 14, 20, 5, 9, 14, 20, 5, 9, 14, 20,
   4, 11, 16, 23, 4, 11, 16, 23, 4, 11, 16, 23, 4, 11, 16, 23,
   6, 10, 15, 21, 6, 10, 15, 21, 6, 10, 15, 21, 6, 10, 15, 21]

/-- Little-endian 32-bit words from a byte list. -/
def bytesToWords : List Nat → List Nat
  | b0 :: b1 :: b2 :: b3 :: rest =>
    (b0 + 256 * (b1 + 256 * (b2 + 256 * b3))) :: bytesToWords rest
  | _ => []

/-- One MD5 round `i` acting on the running state `(A, B, C, D)` with the
message words `m` of the current chunk. -/
def md5Round (m : List Nat) (st : Nat × Nat × Nat × Nat) (i : Nat) :
    Nat × Nat × Nat × Nat :=
  let a := st.1
  let b := st.2.1
  let c := st.2.2.1
  let d := st.2.2.2
  let f :=
    if i < 16 then or32 (and32 b c) (and32 (not32 b) d)
    else if i < 32 then or32 (and32 d b) (and32 (not32 d) c)
    else if i < 48 then xor32 (xor32 b c) d
    else xor32 c (or32 b (not32 d))
  let g :=
    if i < 16 then i
    else if i < 32 then (5 * i + 1) % 16
    else if i < 48 then (3 * i + 5) % 16
    else (7 * i) % 16
  let f' := (f + a + md5K.getD i 0 + m.getD g 0) % 2 ^ 32
  (d, (b + rotl32 f' (md5S.getD i 0)) % 2 ^ 32, b, c)

/-- Process the padded byte stream chunk by chunk (`count` = number of
64-byte chunks remaining, which drives structural recursion). -/
def md5Chunks : Nat → List Nat → Nat × Nat × Nat × Nat → Nat × Nat × Nat × Nat
  | 0, _, st => st
  | count + 1, bytes, st =>
    let m := bytesToWords (bytes.take 64)
    let r := (List.range 64).foldl (md5Round m) st
    md5Chunks count (bytes.drop 64)
      ((st.1 + r.1) % 2 ^ 32, (st.2.1 + r.2.1) % 2 ^ 32,
       (st.2.2.1 + r.2.2.1) % 2 ^ 32, (st.2.2.2 + r.2.2.2) % 2 ^ 32)

def hexDigit (n : Nat) : Char :=
  "0123456789abcdef".data.getD n '0'

/-- Little-endian hex rendering of one 32-bit word (byte by byte, each byte
high nibble first), as `hexdigest` does. -/
def wordHex (w : Nat) : List Char :=
  [hexDigit (w % 256 / 16), hexDigit (w % 16),
   hexDigit (w / 256 % 256 / 16), hexDigit (w / 256 % 16),
   hexDigit (w / 65536 % 256 / 16), hexDigit (w / 65536 % 16),
   hexDigit (w / 16777216 / 16), hexDigit (w / 16777216 % 16)]

/-- `hashlib.md5(bytes).hexdigest()`. -/
def md5Hex (msg : List Nat) : String :=
  let padLen := (56 + 64 - (msg.length + 1) % 64) % 64
  let bitLen := msg.length * 8 % 2 ^ 64
  let lenBytes := (List.range 8).map fun i => bitLen / 2 ^ (8 * i) % 256
  let padded := msg ++ [0x80] ++ List.replicate padLen 0 ++ lenBytes
  let st := md5Chunks (padded.length / 64) padded
    (0x67452301, 0xefcdab89, 0x98badcfe, 0x10325476)
  ⟨wordHex st.1 ++ wordHex st.2.1 ++ wordHex st.2.2.1 ++ wordHex st.2.2.2⟩

/-! ## Reference validator data model (`validate_references.py`)

The validator consumes citations and bibliography entries as loaded from
JSON.  A bibliography author is a dict with a `last_name` field (the
validator reads nothing else from it); an entry carries an `id` and a
`parsed` dict with `authors` and `year` (absent year is modelled as `""`,
matching the falsy checks in the source). -/

structure BibAuthorV where
  lastName : String
deriving DecidableEq, Repr

structure ParsedV where
  authors : List BibAuthorV := []
  year : String := ""
deriving DecidableEq, Repr

structure EntryV where
  id : String
  parsed : ParsedV := {}
deriving DecidableEq, Repr

/-- A sub-citation of a `multiple_citations` payload. -/
structure SubCit where
  authors : List String := []
  year : String := ""
deriving DecidableEq, Repr

/-- The `normalized` dict of a citation.  Key-presence of `multiple` matters
(`'multiple' in normalized`), so it is an `Option`; the string fields use the
dict-`get` defaults (`''` / `[]`) since only falsiness is ever tested. -/
structure NormalizedC where
  authors : List String := []
  year : String := ""
  multiple : Option (List SubCit) := none
  citedInAuthor : String := ""
  citedInYear : String := ""
deriving DecidableEq, Repr

structure CitationV where
  id : String := ""
  rawText : String := ""
  type : String := ""
  normalized : NormalizedC := {}
deriving DecidableEq, Repr

/-- Python truthiness of the optional match id: `None` and `''` are falsy. -/
def pyFalsyOpt : Option String → Bool
  | none => true
  | some s => s = ""

/-- `ReferenceValidator._fuzzy_match_authors`.  Citation authors equal to the
exact string `'et al.'` are dropped from the normalized list, but the
`et al` marker test is a lowercase substring test over the original list;
with the marker only the first citation author is compared against the first
bibliography author, otherwise the score is the fraction of citation authors
having some bibliography author with similarity above 0.8. -/
def fuzzyMatchAuthors (citationAuthors : List String) (bibAuthors : List BibAuthorV) : ℚ :=
  if citationAuthors = [] ∨ bibAuthors = [] then 0
  else
    let citNorm := (citationAuthors.filter (· ≠ "et al.")).map normalizeV
    let bibNorm := bibAuthors.map fun a => normalizeV a.lastName
    if citNorm = [] ∨ bibNorm = [] then 0
    else if citationAuthors.any fun a => containsSub (pyLower a) "et al" then
      calcSimilarity (citNorm.headD "") (bibNorm.headD "")
    else
      let matchCount := citNorm.countP fun ca =>
        bibNorm.any fun ba => mkRat 8 10 < calcSimilarity ca ba
      mkRat matchCount citNorm.length

/-- The author–year key built by `load_data` and `_find_single_match`:
`f"{normalize(last_name)}_{year}"`. -/
def authorYearKey (author year : String) : String := normalizeV author ++ "_" ++ year

/-- The candidate list `bibliography_index[key]` for an author–year composite
key, as built by `load_data` (one occurrence per matching author of each
entry, in entry-then-author order; both `last_name` and `year` must be
truthy).  The id-keyed part of `bibliography_index` is kept separate in this
model: author–year keys always contain `'_'` followed by the year, while the
entry ids generated upstream are 12-character hex strings, so the two key
spaces cannot collide (theorems that rely on this carry a well-formedness
hypothesis on the ids). -/
def indexEntries (bib : List EntryV) (key : String) : List EntryV :=
  bib.flatMap fun e =>
    if e.parsed.year = "" then []
    else
      (e.parsed.authors.filter fun a =>
        a.lastName ≠ "" ∧ authorYearKey a.lastName e.parsed.year = key).map fun _ => e

/-- One best-candidate accumulation step shared by both phases of
`_find_single_match`: update `(best_match, best_confidence)` with a candidate
entry when it passes the extra guard and strictly improves the confidence. -/
def bestStep (score : EntryV → ℚ) (extra : EntryV → Bool)
    (acc : Option String × ℚ) (e : EntryV) : Option String × ℚ :=
  if extra e ∧ acc.2 < score e then (some e.id, score e) else acc

def bestFold (score : EntryV → ℚ) (extra : EntryV → Bool)
    (l : List EntryV) (acc : Option String × ℚ) : Option String × ℚ :=
  l.foldl (bestStep score extra) acc

/-- The exact composite-key phase of `_find_single_match`: for each citation
author (skipping the literal `'et al.'`), look the key up in the index and
keep the candidate with the strictly highest fuzzy author score. -/
def exactPhase (bib : List EntryV) (authors : List String) (year : String) :
    Option String × ℚ :=
  authors.foldl
    (fun acc author =>
      if author = "et al." then acc
      else bestFold (fun e => fuzzyMatchAuthors authors e.parsed.authors) (fun _ => true)
        (indexEntries bib (authorYearKey author year)) acc)
    (none, 0)

/-- The fallback full-bibliography scan of `_find_single_match`: the entry
year must equal the citation year and the fuzzy score must exceed 0.7 (and
strictly improve on the accumulator it is seeded with). -/
def fallbackScan (bib : List EntryV) (authors : List String) (year : String)
    (acc : Option String × ℚ) : Option String × ℚ :=
  bestFold (fun e => fuzzyMatchAuthors authors e.parsed.authors)
    (fun e => decide (e.parsed.year = year) &&
      decide (mkRat 7 10 < fuzzyMatchAuthors authors e.parsed.authors))
    bib acc

/-- `ReferenceValidator._find_single_match`: exact phase, then — whenever
`best_match` is still falsy — the fallback scan seeded with the exact-phase
accumulator. -/
def findSingleMatch (bib : List EntryV) (authors : List String) (year : String) :
    Option String × ℚ :=
  let best := exactPhase bib authors year
  if pyFalsyOpt best.1 then fallbackScan bib authors year best else best

/-- `ReferenceValidator.match_citation_to_bibliography`. -/
def matchCitationToBibliography (bib : List EntryV) (cit : CitationV) :
    Option String × ℚ :=
  let n := cit.normalized
  match n.multiple with
  | some subs =>
    let allFound := subs.foldl
      (fun acc sub =>
        if pyFalsyOpt (findSingleMatch bib sub.authors sub.year).1 then false else acc)
      true
    if allFound then (some "multiple_valid", mkRat 9 10) else (none, 0)
  | none =>
    if cit.type = "secondary" then
      if n.citedInAuthor ≠ "" ∧ n.citedInYear ≠ "" then
        findSingleMatch bib [n.citedInAuthor] n.citedInYear
      else (none, 0)
    else if n.authors = [] ∨ n.year = "" then (none, 0)
    else findSingleMatch bib n.authors n.year

/-! ## Citation extractor (`extract_citations.py`)

Only the parts of `_parse_citation` and `extract_from_file` that the claims
about this component concern are modelled: the confidence computation
(lines 195–208) and the id/location assignment of `extract_from_file`
(lines 246–272).  The `normalized` payload construction (the per-type switch
of `_parse_citation`) is taken as an input, since no claim depends on it. -/

/-- The confidence computation at the end of `_parse_citation`:
start from 1.0, subtract 0.3 when the normalized year is falsy, subtract 0.3
when the normalized authors are falsy and the `multiple` payload is falsy,
then floor at 0.1 with `max`. -/
def citationConfidence (n : NormalizedC) : ℚ :=
  let c0 : ℚ := 1
  let c1 := if n.year = "" then c0 - mkRat 3 10 else c0
  let c2 :=
    if n.authors = [] ∧ (n.multiple = none ∨ n.multiple = some []) then c1 - mkRat 3 10
    else c1
  max (mkRat 1 10) c2

/-- `CitationExtractor._generate_citation_id`:
`md5(f"{text}_{location}".encode()).hexdigest()[:12]`. -/
def generateCitationId (text location : String) : String :=
  strTake (md5Hex (utf8Bytes (text ++ "_" ++ location))) 12

/-- The location string `f"{filepath}:{line_num}:{match.start()}"` used for
id generation in `extract_from_file`. -/
def locationString (file : String) (lineNum matchStart : Nat) : String :=
  file ++ ":" ++ toString lineNum ++ ":" ++ toString matchStart

/-- A fully extracted citation record. -/
structure LocationC where
  file : String
  line : Nat
  column : Nat
  context : String
deriving DecidableEq, Repr

structure CitationE where
  id : String
  rawText : String
  normalized : NormalizedC
  location : LocationC
  type : String
  confidence : ℚ
deriving DecidableEq, Repr

/-- The per-match citation construction of `extract_from_file`: the parsed
citation (type, normalized payload, confidence) plus the location
(`column = match.start() + 1`) and the id derived from
`(raw_text, file, line, match.start())`. -/
def buildCitation (rawText : String) (ctype : String) (normalized : NormalizedC)
    (file : String) (lineNum matchStart : Nat) (context : String) : CitationE :=
  { id := generateCitationId rawText (locationString file lineNum matchStart)
    rawText := rawText
    normalized := normalized
    location := ⟨file, lineNum, matchStart + 1, context⟩
    type := ctype
    confidence := citationConfidence normalized }

/-! ## Bibliography processor (`process_bibliography.py`) -/

/-- `re.search(r'\(\d+\),\s*\d+-\d+', ·)`: an opening parenthesis, digits,
`'),'`, optional whitespace, digits, `'-'`, digits.  Maximal-munch matching
is equivalent to the backtracking regex here because each quantified class
is disjoint from the character that follows it. -/
def digitRun (l : List Char) : Nat := (l.takeWhile (·.isDigit)).length

def matchVolPagesAt (l : List Char) : Bool :=
  match l with
  | '(' :: rest =>
    let d1 := digitRun rest
    if d1 = 0 then false
    else
      match rest.drop d1 with
      | ')' :: ',' :: rest2 =>
        let rest3 := rest2.dropWhile pyIsSpace
        let d2 := digitRun rest3
        if d2 = 0 then false
        else
          match rest3.drop d2 with
          | '-' :: rest4 => digitRun rest4 ≠ 0
          | _ => false
      | _ => false
  | _ => false

def searchVolPages (s : String) : Bool :=
  (List.range (s.data.length + 1)).any fun i => matchVolPagesAt (s.data.drop i)

/-- `re.search(r',\s*\d+\(\d+\)', ·)`. -/
def matchCommaVolIssueAt (l : List Char) : Bool :=
  match l with
  | ',' :: rest =>
    let rest2 := rest.dropWhile pyIsSpace
    let d1 := digitRun rest2
    if d1 = 0 then false
    else
      match rest2.drop d1 with
      | '(' :: rest3 =>
        let d2 := digitRun rest3
        if d2 = 0 then false
        else
          match rest3.drop d2 with
          | ')' :: _ => true
          | _ => false
      | _ => false
  | _ => false

def searchCommaVolIssue (s : String) : Bool :=
  (List.range (s.data.length + 1)).any fun i => matchCommaVolIssueAt (s.data.drop i)

/-- `re.search(r'\(\d+\)', ·)`. -/
def matchParenDigitsAt (l : List Char) : Bool :=
  match l with
  | '(' :: rest =>
    let d := digitRun rest
    if d = 0 then false
    else
      match rest.drop d with
      | ')' :: _ => true
      | _ => false
  | _ => false

def searchParenDigits (s : String) : Bool :=
  (List.range (s.data.length + 1)).any fun i => matchParenDigitsAt (s.data.drop i)

/-- `re.search(r'_[^_]+_', ·)`: an underscore, a nonempty run without
underscores, another underscore. -/
def matchItalicAt (l : List Char) : Bool :=
  match l with
  | '_' :: rest =>
    let run := (rest.takeWhile (· ≠ '_')).length
    if run = 0 then false
    else
      match rest.drop run with
      | '_' :: _ => true
      | _ => false
  | _ => false

def searchItalic (s : String) : Bool :=
  (List.range (s.data.length + 1)).any fun i => matchItalicAt (s.data.drop i)

/-- `BibliographyProcessor._detect_entry_type`: the ordered decision list of
the source, first match wins. -/
def detectEntryType (entryText : String) : String :=
  let entryLower := pyLower entryText
  if containsSub entryLower "[doctoral dissertation]" ∨
     containsSub entryLower "[tesis doctoral]" then "dissertation"
  else if containsSub entryLower "[master" ∨ containsSub entryLower "[tesis de" then "thesis"
  else if searchVolPages entryText then "journal_article"
  else if searchCommaVolIssue entryText then "journal_article"
  else if containsSub entryText " In " ∨ containsSub entryText " En " then "book_chapter"
  else if containsSub entryLower "retrieved from" ∨
          containsSub entryLower "recuperado de" then "web_resource"
  else if searchItalic entryText ∧ ¬searchParenDigits entryText then "book"
  else "unknown"

/-- A bibliography author as produced by `_extract_authors`
(only presence matters to the claims considered here). -/
structure BibAuthorB where
  lastName : String := ""
  initials : String := ""
  full : String := ""
deriving DecidableEq, Repr

/-- The `parsed` dict of a bibliography entry; `authors`, `year` and `title`
are the fields inspected by the validation step of `_parse_entry` (the other
type-specific fields play no role in the claims considered here).  Absence
is `none`; the falsy checks of the source also treat `some ""` and `[]` as
missing. -/
structure ParsedB where
  authors : List BibAuthorB := []
  year : Option String := none
  title : Option String := none
deriving DecidableEq, Repr

structure BibEntryB where
  id : String
  rawText : String
  lineNumber : Nat
  parsed : ParsedB
  type : String
  validationStatus : String
  errors : List String
deriving DecidableEq, Repr

/-- `BibliographyProcessor._generate_entry_id`:
`md5(f"{text}_{line_num}".encode()).hexdigest()[:12]`. -/
def generateEntryId (text : String) (lineNum : Nat) : String :=
  strTake (md5Hex (utf8Bytes (text ++ "_" ++ toString lineNum))) 12

/-- Python truthiness of the optional parsed fields. -/
def pyFalsyStr : Option String → Bool
  | none => true
  | some s => s = ""

/-- The validation tail of `_parse_entry` (lines 318–338): starting from
status `valid` and the errors recorded by the `try` block, each missing
required field (authors, year, title — with the dict falsiness convention)
appends its message and forces `invalid`; a missing ending period appends
its message and demotes a still-`valid` status to `warning`. -/
def validateEntryFields (parsed : ParsedB) (errors0 : List String) (t : String) :
    String × List String :=
  let se1 : String × List String :=
    if parsed.authors = [] then ("invalid", errors0 ++ ["Missing authors"])
    else ("valid", errors0)
  let se2 : String × List String :=
    if pyFalsyStr parsed.year then ("invalid", se1.2 ++ ["Missing publication year"])
    else (se1.1, se1.2)
  let se3 : String × List String :=
    if pyFalsyStr parsed.title then ("invalid", se2.2 ++ ["Missing title"])
    else (se2.1, se2.2)
  if ¬strEndsWith t "." then
    (if se3.1 = "valid" then "warning" else se3.1,
     se3.2 ++ ["Entry should end with a period"])
  else (se3.1, se3.2)

/-- `BibliographyProcessor._parse_entry`, with the `try`-block (the
type-dispatched field parsers, which may raise) abstracted as a fallible
function `tryParse : String → Except String ParsedB`; an exception `e` is
caught and recorded as `"Parsing error: " ++ e` with an empty parsed dict,
exactly as in the source.  Returns `none` for a blank entry text. -/
def parseEntryWith (tryParse : String → Except String ParsedB)
    (entryText : String) (lineNumber : Nat) : Option BibEntryB :=
  let t := pyStrip entryText
  if t = "" then none
  else
    let pe : ParsedB × List String :=
      match tryParse t with
      | .ok parsed => (parsed, [])
      | .error e => ({}, ["Parsing error: " ++ e])
    let v := validateEntryFields pe.1 pe.2 t
    some
      { id := generateEntryId t lineNumber
        rawText := t
        lineNumber := lineNumber
        parsed := pe.1
        type := detectEntryType t
        validationStatus := v.1
        errors := v.2 }

/-- The line loop of `load_and_parse` over one file's lines: `line_num`
counts every physical line (starting from `startNum`), blank lines and
lines starting with `#` are skipped, every other line is parsed and the
resulting entry appended. -/
def processLines (tryParse : String → Except String ParsedB) (startNum : Nat) :
    List String → List BibEntryB
  | [] => []
  | l :: ls =>
    let rest := processLines tryParse (startNum + 1) ls
    let t := pyStrip l
    if t = "" ∨ strStartsWith t "#" then rest
    else
      match parseEntryWith tryParse t startNum with
      | some e => e :: rest
      | none => rest

def loadAndParseLines (tryParse : String → Except String ParsedB)
    (lines : List String) : List BibEntryB :=
  processLines tryParse 1 lines

/-! ## Format validation and the per-citation body of `validate_all`
(`validate_references.py`, lines 190–236 and 362–426) -/

/-- `re.match(r'^\([^)]+\)$', s)`: the whole string is `(`, a nonempty run
of non-`)` characters, `)`; Python's `$` also accepts a single trailing
newline.  (Since `[^)]` excludes `)`, the run is necessarily everything up
to the first `)`.) -/
def matchParenthesesRule (s : String) : Bool :=
  match s.data with
  | '(' :: rest =>
    let m := rest.takeWhile (· ≠ ')')
    decide (m ≠ []) &&
      (decide (rest.drop m.length = [')']) || decide (rest.drop m.length = [')', '\n']))
  | _ => false

/-- `re.match(r'\d{4}[a-z]?', str(year))`: the first four characters are
digits (the optional trailing letter constrains nothing). -/
def yearFormatPrefix (y : String) : Bool :=
  decide (4 ≤ y.data.length) && (y.data.take 4).all (·.isDigit)

/-- `re.search(r'pp?\.\s*\d+', s)`: at some position, `p`, an optional
second `p`, a period, optional whitespace, then a digit. -/
def matchPageFormatAt (l : List Char) : Bool :=
  match l with
  | 'p' :: rest =>
    (match rest with
     | 'p' :: '.' :: rest2 => digitRun (rest2.dropWhile pyIsSpace) ≠ 0
     | _ => false) ||
    (match rest with
     | '.' :: rest2 => digitRun (rest2.dropWhile pyIsSpace) ≠ 0
     | _ => false)
  | _ => false

def searchPageFormat (s : String) : Bool :=
  (List.range (s.data.length + 1)).any fun i => matchPageFormatAt (s.data.drop i)

/-- `ReferenceValidator.validate_citation_format`: format issues plus the
0 / ≤2 / >2 status. -/
def validateCitationFormat (cit : CitationV) : String × List String :=
  let rawText := cit.rawText
  let issues0 : List String :=
    if cit.type = "parenthetical" then
      (if ¬matchParenthesesRule rawText then
        ["Parenthetical citation missing proper parentheses"] else []) ++
      (if containsSub rawText " and " then
        ["Use '&' instead of 'and' in parenthetical citations"] else [])
    else if cit.type = "narrative" then
      if rawText.data.contains '&' ∧ ¬rawText.data.contains '(' then
        ["Use 'and' instead of '&' in narrative citations"] else []
    else []
  let year := cit.normalized.year
  let issues1 := issues0 ++
    (if year ≠ "" ∧ ¬yearFormatPrefix year ∧ year ≠ "in press" then
      ["Invalid year format: " ++ year] else [])
  let issues2 := issues1 ++
    (if containsSub (pyLower rawText) "et al" ∧ ¬containsSub rawText "et al." then
      ["'et al.' should include a period"] else [])
  let issues3 := issues2 ++
    (if (containsSub rawText "p." ∨ containsSub rawText "pp.") ∧
        ¬searchPageFormat rawText then
      ["Page numbers should follow format: p. # or pp. #-#"] else [])
  let status :=
    if issues3.length = 0 then "valid"
    else if issues3.length ≤ 2 then "warning"
    else "invalid"
  (status, issues3)

structure IssueV where
  type : String
  severity : String
  message : String
deriving DecidableEq, Repr

/-- Per-citation `ValidationResult` (the `suggestions` list filled by
`_suggest_bibliography_matches` is not modelled: no claim refers to it and
it influences no other field). -/
structure ValidationResultV where
  citationId : String
  status : String
  issues : List IssueV
  matchedBibliography : Option String
  confidence : ℚ
deriving DecidableEq, Repr

/-- The per-citation loop body of `validate_all`: format issues become
`warning`-severity issues, a failed match adds the `error`-severity
`missing_bibliography` issue, a successful match below 0.8 adds a
`low_confidence_match` warning; the overall status is `invalid` on any
error-severity issue, `warning` on any warning-severity issue, else
`valid`; confidence is zeroed when the match is falsy.  (The message of the
low-confidence issue interpolates the confidence in the source; the exact
message text plays no role here.) -/
def validateCitation (bib : List EntryV) (cit : CitationV) : ValidationResultV :=
  let fmt := validateCitationFormat cit
  let mc := matchCitationToBibliography bib cit
  let issuesF : List IssueV := fmt.2.map fun m => ⟨"format", "warning", m⟩
  let issues :=
    if pyFalsyOpt mc.1 then
      issuesF ++ [⟨"missing_bibliography", "error", "No matching bibliography entry found"⟩]
    else if mc.2 < mkRat 8 10 then
      issuesF ++ [⟨"low_confidence_match", "warning", "Low confidence match"⟩]
    else issuesF
  let status :=
    if issues.any fun i => i.severity = "error" then "invalid"
    else if issues.any fun i => i.severity = "warning" then "warning"
    else "valid"
  { citationId := cit.id
    status := status
    issues := issues
    matchedBibliography := mc.1
    confidence := if pyFalsyOpt mc.1 then 0 else mc.2 }

/-! ## Spec-side definitions

These follow the wording of the specification (not the source) and are used
only to compare refinement-style claims against the embedded code. -/

/-- Well-formedness of loaded bibliography ids: ids produced upstream are
12-character hex prefixes of md5 digests, hence nonempty and free of `'_'`
(so they cannot collide with author–year composite keys). -/
def wellFormedIds (bib : List EntryV) : Prop :=
  ∀ e ∈ bib, e.id ≠ "" ∧ ¬e.id.data.contains '_'

/-- The single-match search as claim C1 words it: if any exact composite-key
lookup hits, choose among the same-key candidates the one with the highest
author-set fuzzy similarity (first of the maxima) and return its id and
score; only if no exact key hits, fall back to the year-exact scan with the
0.7 threshold. -/
def findSingleMatchClaimSpec (bib : List EntryV) (authors : List String)
    (year : String) : Option String × ℚ :=
  let score := fun e : EntryV => fuzzyMatchAuthors authors e.parsed.authors
  let cands := (authors.filter (· ≠ "et al.")).flatMap fun a =>
    indexEntries bib (authorYearKey a year)
  match cands with
  | [] => fallbackScan bib authors year (none, 0)
  | e :: rest =>
    let best := rest.foldl
      (fun acc e' => if acc.2 < score e' then (e'.id, score e') else acc)
      (e.id, score e)
    (some best.1, best.2)

/-- A first-match-wins decision list of boolean tests. -/
def firstMatchType : List ((String → Bool) × String) → String → String
  | [], _ => "unknown"
  | (test, ty) :: rest, s => if test s then ty else firstMatchType rest s

/-- The entry-type tests in the order claim C7 lists them (the claim names a
single volume(issue)-pages journal pattern). -/
def typeTestsClaimC7 : List ((String → Bool) × String) :=
  [ (fun s => containsSub (pyLower s) "[doctoral dissertation]" ||
      containsSub (pyLower s) "[tesis doctoral]", "dissertation"),
    (fun s => containsSub (pyLower s) "[master" ||
      containsSub (pyLower s) "[tesis de", "thesis"),
    (fun s => searchVolPages s, "journal_article"),
    (fun s => containsSub s " In " || containsSub s " En ", "book_chapter"),
    (fun s => containsSub (pyLower s) "retrieved from" ||
      containsSub (pyLower s) "recuperado de", "web_resource"),
    (fun s => searchItalic s && !searchParenDigits s, "book") ]

/-- The entry-type decision list with the second journal pattern
(`,\s*\d+\(\d+\)`) restored between the volume(issue)-pages pattern and the
chapter marker — the order the source actually implements. -/
def typeTestsAmended : List ((String → Bool) × String) :=
  [ (fun s => containsSub (pyLower s) "[doctoral dissertation]" ||
      containsSub (pyLower s) "[tesis doctoral]", "dissertation"),
    (fun s => containsSub (pyLower s) "[master" ||
      containsSub (pyLower s) "[tesis de", "thesis"),
    (fun s => searchVolPages s, "journal_article"),
    (fun s => searchCommaVolIssue s, "journal_article"),
    (fun s => containsSub s " In " || containsSub s " En ", "book_chapter"),
    (fun s => containsSub (pyLower s) "retrieved from" ||
      containsSub (pyLower s) "recuperado de", "web_resource"),
    (fun s => searchItalic s && !searchParenDigits s, "book") ]

/-- Concrete bibliography exercising the interaction of the exact phase and
the fallback scan of `_find_single_match`: the key `smith_2023` hits entry
`A` (whose first author is unrelated to Smith), while the fallback scan
prefers entry `B`. -/
def bibC1 : List EntryV :=
  [ { id := "aaaaaaaaaaaa",
      parsed := { authors := [⟨"Uvw"⟩, ⟨"Smith"⟩], year := "2023" } },
    { id := "bbbbbbbbbbbb",
      parsed := { authors := [⟨"Smithe"⟩], year := "2023" } } ]

/-! ## Characterization of the best-candidate folds -/

theorem bestFold_snd_mono (score : EntryV → ℚ) (extra : EntryV → Bool)
    (l : List EntryV) (acc : Option String × ℚ) :
    acc.2 ≤ (bestFold score extra l acc).2 := by
  induction l generalizing acc with
  | nil => exact le_refl _
  | cons e rest ih =>
    refine le_trans ?_ (ih (bestStep score extra acc e))
    unfold bestStep
    split
    · next h => exact le_of_lt h.2
    · exact le_refl _

theorem bestFold_shape (score : EntryV → ℚ) (extra : EntryV → Bool)
    (l : List EntryV) (acc : Option String × ℚ) :
    bestFold score extra l acc = acc ∨
      ∃ e ∈ l, extra e = true ∧ bestFold score extra l acc = (some e.id, score e) ∧
        acc.2 < score e := by
  induction l generalizing acc with
  | nil => exact Or.inl rfl
  | cons e rest ih =>
    have hstep : bestFold score extra (e :: rest) acc =
        bestFold score extra rest (bestStep score extra acc e) := rfl
    have hle : acc.2 ≤ (bestStep score extra acc e).2 := by
      unfold bestStep
      split
      · next hc => exact le_of_lt hc.2
      · exact le_refl _
    rcases ih (bestStep score extra acc e) with h | ⟨e', he', hx, heq, hlt⟩
    · rw [hstep, h]
      unfold bestStep
      split
      · next hc =>
        exact Or.inr ⟨e, List.mem_cons_self e rest, hc.1, rfl, hc.2⟩
      · exact Or.inl rfl
    · refine Or.inr ⟨e', List.mem_cons_of_mem e he', hx, ?_, lt_of_le_of_lt hle hlt⟩
      rw [hstep]
      exact heq

theorem bestFold_ub (score : EntryV → ℚ) (extra : EntryV → Bool)
    (l : List EntryV) (acc : Option String × ℚ) :
    ∀ e ∈ l, extra e = true → score e ≤ (bestFold score extra l acc).2 := by
  induction l generalizing acc with
  | nil => intro e he; exact absurd he (List.not_mem_nil e)
  | cons e0 rest ih =>
    intro e he hx
    rcases List.mem_cons.mp he with rfl | hmem
    · refine le_trans ?_ (bestFold_snd_mono score extra rest (bestStep score extra acc e))
      unfold bestStep
      split
      · exact le_refl _
      · next hc => exact le_of_not_lt (not_and.mp hc hx)
    · exact ih (bestStep score extra acc e0) e hmem hx

theorem bestFold_eq_self (score : EntryV → ℚ) (extra : EntryV → Bool)
    (l : List EntryV) :
    ∀ acc : Option String × ℚ, (∀ e ∈ l, extra e = true → score e ≤ acc.2) →
      bestFold score extra l acc = acc := by
  induction l with
  | nil => intro acc _; rfl
  | cons e0 rest ih =>
    intro acc h
    have hstep : bestFold score extra (e0 :: rest) acc =
        bestFold score extra rest (bestStep score extra acc e0) := rfl
    have hacc : bestStep score extra acc e0 = acc := by
      unfold bestStep
      split
      · next hc =>
        exact absurd (h e0 (List.mem_cons_self e0 rest) hc.1) (not_le_of_lt hc.2)
      · rfl
    rw [hstep, hacc]
    exact ih acc fun e he hx => h e (List.mem_cons_of_mem e0 he) hx

theorem bestFold_eq_self_iff (score : EntryV → ℚ) (extra : EntryV → Bool)
    (l : List EntryV) (acc : Option String × ℚ) :
    bestFold score extra l acc = acc ↔ ∀ e ∈ l, extra e = true → score e ≤ acc.2 := by
  constructor
  · intro h e he hx
    have := bestFold_ub score extra l acc e he hx
    rw [h] at this
    exact this
  · exact bestFold_eq_self score extra l acc

/-- Membership transfer for the composite-key candidate lists. -/
theorem indexEntries_mem {bib : List EntryV} {key : String} {e : EntryV}
    (h : e ∈ indexEntries bib key) : e ∈ bib := by
  unfold indexEntries at h
  rcases List.mem_flatMap.mp h with ⟨e', he', hmem⟩
  split at hmem
  · exact absurd hmem (List.not_mem_nil e)
  · rcases List.mem_map.mp hmem with ⟨a, _, rfl⟩
    exact he'

/-- Generic form of the exact phase as one fold over concatenated
candidate lists. -/
theorem foldl_exact_eq (score : EntryV → ℚ) (cands : String → List EntryV)
    (as : List String) :
    ∀ acc : Option String × ℚ,
      as.foldl (fun acc a => if a = "et al." then acc
        else bestFold score (fun _ => true) (cands a) acc) acc =
      bestFold score (fun _ => true)
        ((as.filter (· ≠ "et al.")).flatMap cands) acc := by
  induction as with
  | nil => intro acc; rfl
  | cons a rest ih =>
    intro acc
    rw [List.foldl_cons, List.filter_cons]
    by_cases ha : a = "et al."
    · rw [if_pos ha, if_neg (by simp [ha])]
      exact ih acc
    · rw [if_neg ha, if_pos (by simp [ha]), List.flatMap_cons]
      unfold bestFold
      rw [List.foldl_append]
      exact ih _

/-- The exact composite-key phase is one best-candidate fold over the
concatenation of the per-author candidate lists. -/
theorem exactPhase_eq_bestFold (bib : List EntryV) (authors : List String)
    (year : String) :
    exactPhase bib authors year =
      bestFold (fun e => fuzzyMatchAuthors authors e.parsed.authors) (fun _ => true)
        ((authors.filter (· ≠ "et al.")).flatMap fun a =>
          indexEntries bib (authorYearKey a year)) (none, 0) := by
  exact foldl_exact_eq (fun e => fuzzyMatchAuthors authors e.parsed.authors)
    (fun a => indexEntries bib (authorYearKey a year)) authors (none, 0)

theorem ratioQ_nonneg (a b : List Char) : 0 ≤ ratioQ a b := by
  unfold ratioQ
  split
  · exact zero_le_one
  · rw [Rat.mkRat_eq_div]
    exact div_nonneg (by positivity) (by positivity)

theorem calcSimilarity_nonneg (s t : String) : 0 ≤ calcSimilarity s t :=
  ratioQ_nonneg _ _

theorem fuzzyMatchAuthors_nonneg (ca : List String) (ba : List BibAuthorV) :
    0 ≤ fuzzyMatchAuthors ca ba := by
  unfold fuzzyMatchAuthors
  dsimp only
  split
  · exact le_rfl
  · split
    · exact le_rfl
    · split
      · exact calcSimilarity_nonneg _ _
      · rw [Rat.mkRat_eq_div]
        exact div_nonneg (by positivity) (by positivity)

/-- Any id produced by `_find_single_match` is the id of a bibliography
entry. -/
theorem findSingleMatch_mem {bib : List EntryV} {authors : List String}
    {year : String} {x : String}
    (h : (findSingleMatch bib authors year).1 = some x) : ∃ e ∈ bib, x = e.id := by
  have hex := (exactPhase_eq_bestFold bib authors year) ▸
    bestFold_shape (fun e => fuzzyMatchAuthors authors e.parsed.authors) (fun _ => true)
      ((authors.filter (· ≠ "et al.")).flatMap fun a =>
        indexEntries bib (authorYearKey a year)) (none, 0)
  have hexMem : ∀ y, (exactPhase bib authors year).1 = some y → ∃ e ∈ bib, y = e.id := by
    intro y hy
    rcases hex with h0 | ⟨e, he, _, heq, _⟩
    · rw [h0] at hy
      exact absurd hy (by simp)
    · rw [heq] at hy
      rcases List.mem_flatMap.mp he with ⟨a, _, hmem⟩
      exact ⟨e, indexEntries_mem hmem, by simpa using hy.symm⟩
  unfold findSingleMatch at h
  dsimp only at h
  split at h
  · have hfb := bestFold_shape (fun e => fuzzyMatchAuthors authors e.parsed.authors)
      (fun e => decide (e.parsed.year = year) &&
        decide (mkRat 7 10 < fuzzyMatchAuthors authors e.parsed.authors))
      bib (exactPhase bib authors year)
    rcases hfb with h0 | ⟨e, he, _, heq, _⟩
    · exact hexMem x (by rw [← h0]; exact h)
    · rw [show fallbackScan bib authors year (exactPhase bib authors year) =
        bestFold (fun e => fuzzyMatchAuthors authors e.parsed.authors)
          (fun e => decide (e.parsed.year = year) &&
            decide (mkRat 7 10 < fuzzyMatchAuthors authors e.parsed.authors))
          bib (exactPhase bib authors year) from rfl, heq] at h
      exact ⟨e, he, by simpa using h.symm⟩
  · exact hexMem x h

/-- Any id produced by `match_citation_to_bibliography` is either the
`'multiple_valid'` sentinel or the id of a bibliography entry. -/
theorem matchCitation_mem {bib : List EntryV} {cit : CitationV} {x : String}
    (h : (matchCitationToBibliography bib cit).1 = some x) :
    x = "multiple_valid" ∨ ∃ e ∈ bib, x = e.id := by
  unfold matchCitationToBibliography at h
  dsimp only at h
  rcases hm : cit.normalized.multiple with _ | subs
  · rw [hm] at h
    simp only at h
    split at h
    · split at h
      · exact Or.inr (findSingleMatch_mem h)
      · exact absurd h (by simp)
    · split at h
      · exact absurd h (by simp)
      · exact Or.inr (findSingleMatch_mem h)
  · rw [hm] at h
    simp only at h
    split at h
    · exact Or.inl (by simpa using h.symm)
    · exact absurd h (by simp)

/-! ## Reflexivity of the sequence matcher

`ratio(x, x) = 1` requires showing the dp fold of `find_longest_match`
locates the full-length diagonal block on a self-match.  The invariant:
after `m` outer steps the `j2len` table is bounded by `min m (j+1)`, attains
`m` at the diagonal `j = m-1`, and the best block is `(0, 0, m)`. -/

/-- The run length computed for column `j` at one outer step, reading the
previous step's table. -/
def kOf (old : Nat → Nat) (j : Nat) : Nat :=
  (if j = 0 then 0 else old (j - 1)) + 1

theorem flmInner_table (old : Nat → Nat) (i : Nat) (js : List Nat) :
    ∀ (nj0 : Nat → Nat) (b0 : Nat × Nat × Nat) (j : Nat),
      (flmInner old i js (nj0, b0)).1 j = if j ∈ js then kOf old j else nj0 j := by
  induction js with
  | nil =>
    intro nj0 b0 j
    rw [if_neg (List.not_mem_nil j)]
    rfl
  | cons j0 rest ih =>
    intro nj0 b0 j
    have hstep : flmInner old i (j0 :: rest) (nj0, b0) =
        flmInner old i rest
          ((fun j' => if j' = j0 then kOf old j0 else nj0 j'),
           (if b0.2.2 < kOf old j0 then (i + 1 - kOf old j0, j0 + 1 - kOf old j0, kOf old j0)
            else b0)) := rfl
    rw [hstep, ih]
    by_cases hj : j ∈ rest
    · rw [if_pos hj, if_pos (List.mem_cons_of_mem j0 hj)]
    · rw [if_neg hj]
      by_cases hjj : j = j0
      · subst hjj
        simp [kOf]
      · rw [if_neg hjj, if_neg (by simp [hjj, hj])]

theorem flmInner_best_stable (old : Nat → Nat) (i : Nat) (js : List Nat) :
    ∀ (nj0 : Nat → Nat) (b0 : Nat × Nat × Nat),
      (∀ j ∈ js, kOf old j ≤ b0.2.2) →
      (flmInner old i js (nj0, b0)).2 = b0 := by
  induction js with
  | nil => intro nj0 b0 _; rfl
  | cons j0 rest ih =>
    intro nj0 b0 hb
    have hk0 : ¬b0.2.2 < kOf old j0 :=
      not_lt_of_le (hb j0 (List.mem_cons_self j0 rest))
    have hstep : flmInner old i (j0 :: rest) (nj0, b0) =
        flmInner old i rest
          ((fun j' => if j' = j0 then kOf old j0 else nj0 j'), b0) := by
      show flmInner old i rest (_, (if b0.2.2 < kOf old j0 then _ else b0)) = _
      rw [if_neg hk0]
      rfl
    rw [hstep]
    exact ih _ b0 fun j hj => hb j (List.mem_cons_of_mem j0 hj)

theorem flmInner_best_peak (old : Nat → Nat) (i jstar B : Nat) :
    ∀ js : List Nat, List.Pairwise (· < ·) js → jstar ∈ js →
      (∀ j ∈ js, kOf old j ≤ B + 1) →
      (∀ j ∈ js, kOf old j = B + 1 → jstar ≤ j) →
      kOf old jstar = B + 1 →
      ∀ (nj0 : Nat → Nat) (b0 : Nat × Nat × Nat), b0.2.2 = B →
        (flmInner old i js (nj0, b0)).2 = (i - B, jstar - B, B + 1) := by
  intro js
  induction js with
  | nil => intro _ habs; exact absurd habs (List.not_mem_nil jstar)
  | cons j0 rest ih =>
    intro hpw hmem hub hpos hstar nj0 b0 hb0
    have hk0 : kOf old j0 ≤ B + 1 := hub j0 (List.mem_cons_self j0 rest)
    rcases eq_or_lt_of_le hk0 with heq | hlt
    · -- the head is the peak: it must be `jstar` itself
      have hj0 : j0 = jstar := by
        rcases List.mem_cons.mp hmem with h | h
        · exact h.symm
        · have h1 : jstar ≤ j0 := hpos j0 (List.mem_cons_self j0 rest) heq
          have h2 : j0 < jstar := (List.pairwise_cons.mp hpw).1 jstar h
          exact absurd h1 (not_le_of_lt h2)
      subst hj0
      have hupd : b0.2.2 < kOf old j0 := by rw [hb0, heq]; exact Nat.lt_succ_self B
      have hstep : flmInner old i (j0 :: rest) (nj0, b0) =
          flmInner old i rest
            ((fun j' => if j' = j0 then kOf old j0 else nj0 j'),
             (i + 1 - kOf old j0, j0 + 1 - kOf old j0, kOf old j0)) := by
        show flmInner old i rest (_, (if b0.2.2 < kOf old j0 then _ else b0)) = _
        rw [if_pos hupd]
        rfl
      rw [hstep, flmInner_best_stable old i rest _ _
        (fun j hj => by
          rw [heq]
          exact hub j (List.mem_cons_of_mem j0 hj))]
      rw [heq]
      simp [Nat.succ_sub_succ]
    · -- the head is below the peak: no update, recurse
      have hknoupd : ¬b0.2.2 < kOf old j0 := by
        rw [hb0]
        exact not_lt_of_le (Nat.lt_succ_iff.mp hlt)
      have hstep : flmInner old i (j0 :: rest) (nj0, b0) =
          flmInner old i rest
            ((fun j' => if j' = j0 then kOf old j0 else nj0 j'), b0) := by
        show flmInner old i rest (_, (if b0.2.2 < kOf old j0 then _ else b0)) = _
        rw [if_neg hknoupd]
        rfl
      have hmem' : jstar ∈ rest := by
        rcases List.mem_cons.mp hmem with h | h
        · exfalso
          rw [h] at hstar
          rw [hstar] at hlt
          exact lt_irrefl _ hlt
        · exact h
      rw [hstep]
      exact ih (List.pairwise_cons.mp hpw).2 hmem'
        (fun j hj => hub j (List.mem_cons_of_mem j0 hj))
        (fun j hj => hpos j (List.mem_cons_of_mem j0 hj)) hstar _ b0 hb0

/-- The outer dp fold of `find_longest_match` on a self-match, cut off after
`m` rows (`flmSelfFold x x.length` is definitionally the state computed by
`findLongestMatch x x 0 x.length 0 x.length`). -/
def flmSelfFold (x : List Char) (m : Nat) : (Nat → Nat) × (Nat × Nat × Nat) :=
  (List.range' 0 m).foldl
    (fun st i =>
      flmInner st.1 i
        ((b2jPos x (x.getD i (Char.ofNat 0))).filter
          fun j => decide (0 ≤ j) && decide (j < x.length))
        ((fun _ => 0), st.2))
    ((fun _ => 0), (0, 0, 0))

theorem flmSelfFold_inv (x : List Char) :
    ∀ m, m ≤ x.length →
      (∀ j, (flmSelfFold x m).1 j ≤ min m (j + 1)) ∧
      (0 < m → (flmSelfFold x m).1 (m - 1) = m) ∧
      (flmSelfFold x m).2 = (0, 0, m) := by
  intro m
  induction m with
  | zero =>
    intro _
    exact ⟨fun j => Nat.zero_le _, fun h => absurd h (lt_irrefl 0), rfl⟩
  | succ m ih =>
    intro hm1
    have hm : m < x.length := hm1
    obtain ⟨i1, i2, i3⟩ := ih (le_of_lt hm)
    set old := (flmSelfFold x m).1 with hold
    set js := (b2jPos x (x.getD m (Char.ofNat 0))).filter
      (fun j => decide (0 ≤ j) && decide (j < x.length)) with hjs
    have hr : List.range' 0 (m + 1) = List.range' 0 m ++ [m] := by
      simpa using @List.range'_concat 1 0 m
    have hstep : flmSelfFold x (m + 1) =
        flmInner old m js ((fun _ => 0), (flmSelfFold x m).2) := by
      unfold flmSelfFold
      rw [hr, List.foldl_append]
      rfl
    have hjmem : m ∈ js := by
      rw [hjs]
      refine List.mem_filter.mpr ⟨?_, by simp [hm]⟩
      unfold b2jPos
      exact List.mem_filter.mpr ⟨List.mem_range.mpr hm, by simp⟩
    have hub : ∀ j ∈ js, kOf old j ≤ m + 1 := by
      intro j _
      unfold kOf
      split
      · omega
      · have := i1 (j - 1)
        omega
    have hpeak : kOf old m = m + 1 := by
      unfold kOf
      rcases Nat.eq_zero_or_pos m with h0 | hpos
      · rw [if_pos h0, h0]
      · rw [if_neg (by omega), i2 hpos]
    have hpos : ∀ j ∈ js, kOf old j = m + 1 → m ≤ j := by
      intro j _ hj
      unfold kOf at hj
      split at hj
      · omega
      · have := i1 (j - 1)
        omega
    have hpw : List.Pairwise (· < ·) js := by
      refine List.Pairwise.sublist ?_ (List.pairwise_lt_range x.length)
      rw [hjs]
      exact (List.filter_sublist _).trans (List.filter_sublist _)
    refine ⟨?_, ?_, ?_⟩
    · intro j
      rw [hstep, flmInner_table]
      split
      · next hjin =>
        have := hub j hjin
        have h2 : kOf old j ≤ j + 1 := by
          unfold kOf
          split
          · omega
          · have := i1 (j - 1)
            omega
        omega
      · exact Nat.zero_le _
    · intro _
      rw [hstep, flmInner_table, if_pos (by simpa using hjmem)]
      simpa using hpeak
    · rw [hstep, flmInner_best_peak old m m m js hpw hjmem hub hpos hpeak _ _
        (by rw [i3])]
      simp [Nat.sub_self]

theorem findLongestMatch_self (x : List Char) :
    findLongestMatch x x 0 x.length 0 x.length = (0, 0, x.length) := by
  have h := (flmSelfFold_inv x x.length le_rfl).2.2
  exact h

theorem matchTotalGo_empty (a b : List Char) (fuel alo blo bhi : Nat) :
    matchTotalGo a b fuel alo alo blo bhi = 0 := by
  cases fuel with
  | zero => rfl
  | succ f =>
    unfold matchTotalGo findLongestMatch
    rw [Nat.sub_self]
    rfl

theorem matchTotal_self (x : List Char) : matchTotal x x = x.length := by
  unfold matchTotal
  rcases Nat.eq_zero_or_pos x.length with h0 | hpos
  · rw [h0]
    exact matchTotalGo_empty x x 1 0 0 0
  · rw [matchTotalGo, findLongestMatch_self]
    dsimp only
    rw [if_neg (by omega), Nat.zero_add, matchTotalGo_empty, matchTotalGo_empty]
    omega

theorem ratioQ_self (d : List Char) : ratioQ d d = 1 := by
  unfold ratioQ
  rcases Nat.eq_zero_or_pos d.length with h0 | hpos
  · rw [if_pos (by omega)]
  · rw [if_neg (by omega), matchTotal_self]
    rw [Rat.mkRat_eq_div]
    have hne : ((d.length + d.length : ℕ) : ℚ) ≠ 0 := Nat.cast_ne_zero.mpr (by omega)
    rw [div_eq_one_iff_eq hne]
    push_cast
    ring

/-- `_calculate_similarity` is reflexive (on every string, empty included). -/
theorem calcSimilarity_self (s : String) : calcSimilarity s s = 1 :=
  ratioQ_self _

/-- Two strings with the same normalization have similarity 1.0. -/
theorem calcSimilarity_of_norm_eq {s t : String} (h : normalizeV s = normalizeV t) :
    calcSimilarity s t = 1 := by
  unfold calcSimilarity
  rw [h]
  exact ratioQ_self _

/-! ## `str.strip()` is idempotent (needed to relate `load_and_parse`, which
strips each line, with `_parse_entry`, which strips again). -/

theorem dropWhile_of_head? {α : Type} (p : α → Bool) (X : List α)
    (h : ∀ x, X.head? = some x → p x = false) : X.dropWhile p = X := by
  cases X with
  | nil => rfl
  | cons b u => simp [List.dropWhile_cons, h b rfl]

theorem head?_dropWhile_false {α : Type} (p : α → Bool) (l : List α) :
    ∀ x, (l.dropWhile p).head? = some x → p x = false := by
  intro x hx
  have := List.head?_dropWhile_not p l
  rw [hx] at this
  exact this

theorem stripList_head? (l : List Char) :
    ∀ x, (stripList l).head? = some x → pyIsSpace x = false := by
  intro x hx
  unfold stripList at hx
  rw [List.head?_reverse] at hx
  have h2 : ((l.dropWhile pyIsSpace).reverse).getLast? = some x := by
    conv_lhs => rw [← List.takeWhile_append_dropWhile pyIsSpace (l.dropWhile pyIsSpace).reverse]
    rw [List.getLast?_append, hx]
    rfl
  rw [List.getLast?_reverse] at h2
  exact head?_dropWhile_false pyIsSpace l x h2

theorem stripList_getLast? (l : List Char) :
    ∀ x, (stripList l).getLast? = some x → pyIsSpace x = false := by
  intro x hx
  unfold stripList at hx
  rw [List.getLast?_reverse] at hx
  exact head?_dropWhile_false pyIsSpace _ x hx

theorem stripList_idem (l : List Char) : stripList (stripList l) = stripList l := by
  conv_lhs => rw [stripList]
  rw [dropWhile_of_head? pyIsSpace _ (stripList_head? l)]
  rw [dropWhile_of_head? pyIsSpace _
    (fun x hx => stripList_getLast? l x (by rwa [List.head?_reverse] at hx))]
  rw [List.reverse_reverse]

theorem pyStrip_idem (s : String) : pyStrip (pyStrip s) = pyStrip s :=
  congrArg String.mk (stripList_idem s.data)

end CRV

namespace CRV

/-! ## Claims -/

/-- Claim C3: for every extracted citation, the confidence equals 1.0
reduced by 0.3 when the normalized year is absent and by a further 0.3 when
the normalized authors are absent with no `multiple` sub-citations, floored
at 0.1; hence it always lies in [0.1, 1.0].  (The `buildCitation` conjunct
ties the formula to the citation record the extractor emits.) -/
theorem claim_C3 (n : NormalizedC) :
    (∀ rt ty f l st ctx, (buildCitation rt ty n f l st ctx).confidence = citationConfidence n) ∧
    (¬n.year = "" → ¬(n.authors = [] ∧ (n.multiple = none ∨ n.multiple = some [])) →
      citationConfidence n = 1) ∧
    (n.year = "" → ¬(n.authors = [] ∧ (n.multiple = none ∨ n.multiple = some [])) →
      citationConfidence n = mkRat 7 10) ∧
    (¬n.year = "" → n.authors = [] ∧ (n.multiple = none ∨ n.multiple = some []) →
      citationConfidence n = mkRat 7 10) ∧
    (n.year = "" → n.authors = [] ∧ (n.multiple = none ∨ n.multiple = some []) →
      citationConfidence n = mkRat 2 5) ∧
    mkRat 1 10 ≤ citationConfidence n ∧ citationConfidence n ≤ 1 := by
  refine ⟨fun _ _ _ _ _ _ => rfl, ?_, ?_, ?_, ?_, ?_, ?_⟩ <;>
    · unfold citationConfidence
      dsimp only
      split_ifs <;>
        first
          | tauto
          | (intros; norm_num [Rat.mkRat_eq_div])

/-- Witness for claim C3 at concrete normalized payloads. -/
theorem claim_C3_witness :
    citationConfidence { year := "2023", authors := ["Smith"] } = 1 ∧
    citationConfidence ({} : NormalizedC) = mkRat 2 5 :=
  ⟨(claim_C3 { year := "2023", authors := ["Smith"] }).2.1 (by decide) (by decide),
   (claim_C3 {}).2.2.2.2.1 (by decide) (by decide)⟩

/-- Claim C5 counterexample: similarity of a name against its
accent-stripped variant is below 1.0 — the normalization lowercases but
does not remove diacritics, so the claim's "modulo diacritics" reflexivity
fails at `"José"` vs `"Jose"` (similarity 0.75). -/
theorem claim_C5_counterexample :
    calcSimilarity "José" "Jose" = mkRat 3 4 ∧ (mkRat 3 4 : ℚ) ≠ 1 := by
  constructor
  · decide
  · decide

/-- Claim C5 (amended): the fuzzy author-similarity is reflexive and equals
1.0 on any two strings with the same normalization (case, surrounding or
repeated whitespace, and dash variants); a variant differing only in
diacritics is generally not at similarity 1.0 (`José`/`Jose` scores 3/4);
and unrelated names score materially below the 0.8 threshold
(`Smith`/`Jones` scores 1/5). -/
theorem claim_C5_amended :
    (∀ s, calcSimilarity s s = 1) ∧
    (∀ s t, normalizeV s = normalizeV t → calcSimilarity s t = 1) ∧
    calcSimilarity "GARCÍA" "garcía" = 1 ∧
    calcSimilarity "José" "Jose" < 1 ∧
    calcSimilarity "Smith" "Jones" = mkRat 1 5 ∧ mkRat 1 5 < mkRat 8 10 := by
  refine ⟨calcSimilarity_self, fun s t h => calcSimilarity_of_norm_eq h, ?_, ?_, ?_, ?_⟩
  · exact calcSimilarity_of_norm_eq (by decide)
  · decide
  · decide
  · decide

/-- Witness for claim C5 (amended): the universally quantified conjuncts
applied at concrete inputs. -/
theorem claim_C5_amended_witness :
    calcSimilarity "Smith" "Smith" = 1 ∧ calcSimilarity "SMITH" "smith" = 1 :=
  ⟨claim_C5_amended.1 "Smith", claim_C5_amended.2.1 "SMITH" "smith" (by decide)⟩

/-- Claim C6: the citation id assigned by `extract_from_file` is a
deterministic function of `(raw_text, file, line, column)` alone — two
citations built from matches with the same raw text, file, line and match
start (column = start + 1) receive the same id, whatever their pattern
type, normalized payload or context window; re-running the (pure)
extraction on unchanged input therefore reproduces the ids. -/
theorem buildCitation_id (rt ty : String) (n : NormalizedC) (f : String)
    (l st : Nat) (c : String) :
    (buildCitation rt ty n f l st c).id = generateCitationId rt (locationString f l st) :=
  rfl

theorem buildCitation_column (rt ty : String) (n : NormalizedC) (f : String)
    (l st : Nat) (c : String) :
    (buildCitation rt ty n f l st c).location.column = st + 1 :=
  rfl

theorem claim_C6 (rt f : String) (l st : Nat) (ty1 ty2 : String)
    (n1 n2 : NormalizedC) (c1 c2 : String) :
    (buildCitation rt ty1 n1 f l st c1).id = (buildCitation rt ty2 n2 f l st c2).id ∧
    (buildCitation rt ty1 n1 f l st c1).id = generateCitationId rt (locationString f l st) ∧
    (buildCitation rt ty1 n1 f l st c1).location.column = st + 1 := by
  refine ⟨?_, buildCitation_id rt ty1 n1 f l st c1, buildCitation_column rt ty1 n1 f l st c1⟩
  rw [buildCitation_id, buildCitation_id]

/-- Claim C7 counterexample: an entry matching both the second journal
pattern `,\s*\d+\(\d+\)` and the `' In '` chapter marker — the claim's
ordered list (which has only the volume(issue)-pages journal test) would
classify it `book_chapter`, but the code classifies it `journal_article`
because of the second journal test the claim omits. -/
theorem claim_C7_counterexample :
    detectEntryType "Smith, J. (2020). Title. In Journal, 15(3)." = "journal_article" ∧
    firstMatchType typeTestsClaimC7 "Smith, J. (2020). Title. In Journal, 15(3)." =
      "book_chapter" ∧
    ("journal_article" : String) ≠ "book_chapter" := by
  refine ⟨by decide, by decide, by decide⟩

/-- Claim C7 (amended): entry-type detection is the first-match-wins
decision list dissertation marker, thesis marker, volume(issue)-pages
journal pattern, comma-volume(issue) journal pattern, `' In '`/`' En '`
chapter marker, retrieved-from web marker, italicized-title without a
parenthesized number, else unknown. -/
theorem claim_C7_amended (s : String) :
    detectEntryType s = firstMatchType typeTestsAmended s := by
  simp only [detectEntryType, typeTestsAmended, firstMatchType]
  simp only [Bool.or_eq_true, Bool.and_eq_true, Bool.not_eq_true', Bool.not_eq_true,
    decide_eq_true_eq]

theorem validateEntryFields_invalid (parsed : ParsedB) (errors0 : List String)
    (t : String)
    (h : parsed.authors = [] ∨ pyFalsyStr parsed.year = true ∨
      pyFalsyStr parsed.title = true) :
    (validateEntryFields parsed errors0 t).1 = "invalid" := by
  unfold validateEntryFields
  dsimp only
  split_ifs <;> first | rfl | simp_all

theorem validateEntryFields_warning (parsed : ParsedB) (errors0 : List String)
    (t : String)
    (h1 : ¬parsed.authors = []) (h2 : ¬pyFalsyStr parsed.year = true)
    (h3 : ¬pyFalsyStr parsed.title = true) (h4 : ¬strEndsWith t "." = true) :
    (validateEntryFields parsed errors0 t).1 = "warning" ∧
      "Entry should end with a period" ∈ (validateEntryFields parsed errors0 t).2 := by
  unfold validateEntryFields
  dsimp only
  rw [if_neg h1, if_neg h2, if_neg h3, if_pos (by simpa using h4)]
  exact ⟨rfl, by simp⟩

/-- Claim C2: for every parsed bibliography entry, a missing authors, year
or title field forces `validation_status = 'invalid'`; with all three
present but no trailing period, the status is exactly `'warning'` and the
ending-period message is appended to the errors. -/
theorem claim_C2 (p : String → Except String ParsedB) (text : String) (n : Nat)
    (entry : BibEntryB) (h : parseEntryWith p text n = some entry) :
    ((entry.parsed.authors = [] ∨ pyFalsyStr entry.parsed.year = true ∨
        pyFalsyStr entry.parsed.title = true) → entry.validationStatus = "invalid") ∧
    (¬entry.parsed.authors = [] → ¬pyFalsyStr entry.parsed.year = true →
      ¬pyFalsyStr entry.parsed.title = true → ¬strEndsWith entry.rawText "." = true →
      entry.validationStatus = "warning" ∧
        "Entry should end with a period" ∈ entry.errors) := by
  unfold parseEntryWith at h
  dsimp only at h
  split at h
  · exact absurd h (by simp)
  · injection h with h
    subst h
    dsimp only
    constructor
    · intro hcase
      exact validateEntryFields_invalid _ _ _ hcase
    · intro h1 h2 h3 h4
      exact validateEntryFields_warning _ _ _ h1 h2 h3 h4

/-- A concrete parser and entry witnessing claim C2's warning branch. -/
def c2Parser : String → Except String ParsedB := fun _ =>
  .ok { authors := [{ lastName := "Smith" }], year := some "2023", title := some "Title" }

def c2Entry : BibEntryB :=
  { id := generateEntryId "Smith text" 1
    rawText := "Smith text"
    lineNumber := 1
    parsed := { authors := [{ lastName := "Smith" }], year := some "2023", title := some "Title" }
    type := detectEntryType "Smith text"
    validationStatus := "warning"
    errors := ["Entry should end with a period"] }

/-- Witness for claim C2 at a concrete entry lacking the trailing period. -/
theorem claim_C2_witness :
    c2Entry.validationStatus = "warning" ∧
      "Entry should end with a period" ∈ c2Entry.errors :=
  (claim_C2 c2Parser "Smith text" 1 c2Entry (by decide)).2
    (by decide) (by decide) (by decide) (by decide)

/-! ### Claim C9: error recovery in the bibliography line loop -/

theorem parseEntryWith_congr (p p' : String → Except String ParsedB)
    (t : String) (n : Nat) (hp : p (pyStrip t) = p' (pyStrip t)) :
    parseEntryWith p t n = parseEntryWith p' t n := by
  unfold parseEntryWith
  dsimp only
  rw [hp]

theorem processLines_append (p : String → Except String ParsedB)
    (xs ys : List String) :
    ∀ n, processLines p n (xs ++ ys) =
      processLines p n xs ++ processLines p (n + xs.length) ys := by
  induction xs with
  | nil => intro n; simp [processLines]
  | cons l xs ih =>
    intro n
    rw [List.cons_append]
    simp only [processLines]
    rw [ih (n + 1)]
    have he : n + 1 + xs.length = n + (xs.length + 1) := by omega
    rw [he]
    split
    · rfl
    · split <;> rfl

theorem processLines_congr (p p' : String → Except String ParsedB)
    (xs : List String) (h : ∀ l ∈ xs, p (pyStrip l) = p' (pyStrip l)) :
    ∀ n, processLines p n xs = processLines p' n xs := by
  induction xs with
  | nil => intro n; rfl
  | cons l xs ih =>
    intro n
    simp only [processLines]
    rw [ih (fun l hl => h l (List.mem_cons_of_mem _ hl)) (n + 1)]
    rw [parseEntryWith_congr p p' (pyStrip l) n
      (by rw [pyStrip_idem]; exact h l (List.mem_cons_self l xs))]

/-- `_parse_entry` on a raising parser: the exception is caught and
recorded, the parsed dict is empty, and the three missing-field errors
follow; the entry is still produced. -/
theorem parseEntryWith_error (p : String → Except String ParsedB)
    (t : String) (n : Nat) (msg : String)
    (ht : pyStrip t = t) (hne : t ≠ "") (hp : p t = .error msg) :
    parseEntryWith p t n = some
      { id := generateEntryId t n
        rawText := t
        lineNumber := n
        parsed := {}
        type := detectEntryType t
        validationStatus := "invalid"
        errors := (["Parsing error: " ++ msg, "Missing authors",
          "Missing publication year", "Missing title"] ++
          (if ¬strEndsWith t "." = true then ["Entry should end with a period"] else [])) } := by
  unfold parseEntryWith
  dsimp only
  rw [ht, if_neg hne, hp]
  by_cases hend : strEndsWith t "." = true
  · simp [validateEntryFields, pyFalsyStr, hend]
  · simp [validateEntryFields, pyFalsyStr, hend]

/-- Claim C9: a parsing exception on one bibliography line is caught and
recorded in that entry's errors without aborting the loop — the output is
the entries of the earlier lines, then an entry for the failing line
carrying the `Parsing error:` message (and `invalid` status), then the
entries of the later lines, and the earlier/later parts coincide with what
any parser agreeing on those lines (in particular one that does not raise)
would produce. -/
theorem claim_C9 (p p' : String → Except String ParsedB)
    (pre post : List String) (bad msg : String)
    (hagree : ∀ l ∈ pre ++ post, p (pyStrip l) = p' (pyStrip l))
    (hbad : p (pyStrip bad) = .error msg)
    (hne : pyStrip bad ≠ "")
    (hnh : ¬strStartsWith (pyStrip bad) "#" = true) :
    ∃ e : BibEntryB,
      loadAndParseLines p (pre ++ bad :: post) =
        processLines p' 1 pre ++ e :: processLines p' (pre.length + 2) post ∧
      ("Parsing error: " ++ msg) ∈ e.errors ∧
      e.validationStatus = "invalid" ∧
      e.rawText = pyStrip bad ∧
      e.lineNumber = pre.length + 1 := by
  have hpre : ∀ l ∈ pre, p (pyStrip l) = p' (pyStrip l) := fun l hl =>
    hagree l (List.mem_append_left _ hl)
  have hpost : ∀ l ∈ post, p (pyStrip l) = p' (pyStrip l) := fun l hl =>
    hagree l (List.mem_append_right _ hl)
  have hparse := parseEntryWith_error p (pyStrip bad) (pre.length + 1) msg
    (pyStrip_idem bad) hne hbad
  refine ⟨{ id := generateEntryId (pyStrip bad) (pre.length + 1)
            rawText := pyStrip bad
            lineNumber := pre.length + 1
            parsed := {}
            type := detectEntryType (pyStrip bad)
            validationStatus := "invalid"
            errors := ["Parsing error: " ++ msg, "Missing authors",
              "Missing publication year", "Missing title"] ++
              (if ¬strEndsWith (pyStrip bad) "." = true then
                ["Entry should end with a period"] else []) }, ?_, ?_, rfl, rfl, rfl⟩
  · unfold loadAndParseLines
    rw [processLines_append p pre (bad :: post) 1]
    rw [processLines_congr p p' pre hpre 1]
    simp only [processLines]
    rw [if_neg (by simp [hne, hnh])]
    have h1 : 1 + pre.length = pre.length + 1 := by omega
    rw [h1, hparse]
    rw [processLines_congr p p' post hpost (pre.length + 1 + 1)]
  · simp

/-! ### Claims C8, C10, C4, C1: the matcher and the per-citation status -/

theorem foldl_flag_eq_true {α : Type} (f : α → Bool) (l : List α) :
    ∀ b : Bool, l.foldl (fun acc x => if f x then false else acc) b = true ↔
      b = true ∧ ∀ x ∈ l, f x = false := by
  induction l with
  | nil => intro b; simp
  | cons x xs ih =>
    intro b
    rw [List.foldl_cons, ih]
    cases hfx : f x <;> simp [hfx]

/-- Under well-formed ids, the falsiness test on a single-match result is
exactly "no bibliography entry resolved". -/
theorem findSingleMatch_falsy_iff (bib : List EntryV) (authors : List String)
    (year : String) (hwf : ∀ e ∈ bib, e.id ≠ "") :
    (pyFalsyOpt (findSingleMatch bib authors year).1 = false ↔
      ∃ e ∈ bib, (findSingleMatch bib authors year).1 = some e.id) := by
  rcases hr : (findSingleMatch bib authors year).1 with _ | x
  · simp [pyFalsyOpt]
  · rcases findSingleMatch_mem hr with ⟨e, he, rfl⟩
    simp only [pyFalsyOpt]
    constructor
    · intro _
      exact ⟨e, he, rfl⟩
    · intro _
      simpa using hwf e he

/-- Claim C8: for a citation carrying a `multiple` payload, the matcher
returns the sentinel with confidence exactly 0.9 iff every sub-citation
independently resolves to some bibliography entry; if any sub-citation
fails to resolve, the result is unmatched with confidence 0. -/
theorem claim_C8 (bib : List EntryV) (cit : CitationV) (subs : List SubCit)
    (hwf : ∀ e ∈ bib, e.id ≠ "")
    (hm : cit.normalized.multiple = some subs) :
    (matchCitationToBibliography bib cit = (some "multiple_valid", mkRat 9 10) ↔
      ∀ sub ∈ subs, ∃ e ∈ bib,
        (findSingleMatch bib sub.authors sub.year).1 = some e.id) ∧
    ((∃ sub ∈ subs, (findSingleMatch bib sub.authors sub.year).1 = none) →
      matchCitationToBibliography bib cit = (none, 0)) := by
  have hres : ∀ sub : SubCit,
      (pyFalsyOpt (findSingleMatch bib sub.authors sub.year).1 = false ↔
        ∃ e ∈ bib, (findSingleMatch bib sub.authors sub.year).1 = some e.id) :=
    fun sub => findSingleMatch_falsy_iff bib sub.authors sub.year hwf
  have hAiff := foldl_flag_eq_true
    (fun sub => pyFalsyOpt (findSingleMatch bib sub.authors sub.year).1) subs true
  unfold matchCitationToBibliography
  dsimp only
  rw [hm]
  dsimp only
  constructor
  · split
    · next hA =>
      rw [hAiff] at hA
      simp only [true_iff]
      intro sub hsub
      exact (hres sub).mp (hA.2 sub hsub)
    · next hA =>
      constructor
      · intro habs
        exact absurd (congrArg Prod.fst habs) (by simp)
      · intro hall
        exact absurd (hAiff.mpr ⟨rfl, fun sub hsub => (hres sub).mpr (hall sub hsub)⟩) hA
  · rintro ⟨sub, hsub, hnone⟩
    rw [if_neg]
    intro hA
    rw [hAiff] at hA
    have := hA.2 sub hsub
    rw [hnone] at this
    simp [pyFalsyOpt] at this

def bibC8 : List EntryV :=
  [ { id := "aaaaaaaaaaaa", parsed := { authors := [⟨"Smith"⟩], year := "2023" } } ]

def citC8 : CitationV :=
  { type := "multiple_citations",
    normalized := { multiple := some [{ authors := ["Smith"], year := "2023" }] } }

/-- Witness for claim C8: a multiple citation whose single sub-citation
resolves, evaluated concretely. -/
theorem claim_C8_witness :
    matchCitationToBibliography bibC8 citC8 = (some "multiple_valid", mkRat 9 10) ↔
      ∀ sub ∈ [({ authors := ["Smith"], year := "2023" } : SubCit)], ∃ e ∈ bibC8,
        (findSingleMatch bibC8 sub.authors sub.year).1 = some e.id :=
  (claim_C8 bibC8 citC8 [{ authors := ["Smith"], year := "2023" }]
    (by decide) (by decide)).1

/-- Under well-formed ids, the falsiness test on the full matcher result is
exactly "no match id". -/
theorem matchCitation_falsy_iff (bib : List EntryV) (cit : CitationV)
    (hwf : ∀ e ∈ bib, e.id ≠ "") :
    (pyFalsyOpt (matchCitationToBibliography bib cit).1 = true ↔
      (matchCitationToBibliography bib cit).1 = none) := by
  rcases hr : (matchCitationToBibliography bib cit).1 with _ | x
  · simp [pyFalsyOpt]
  · rcases matchCitation_mem hr with h | ⟨e, he, rfl⟩
    · subst h
      simp [pyFalsyOpt]
    · simp [pyFalsyOpt, hwf e he]

/-- Claim C10: the overall per-citation status is `'invalid'` exactly when
no bibliography match was found; format issues are always attached at
severity `'warning'`, the only `'error'`-severity issue is
`missing_bibliography`, and a matched citation is at worst `'warning'`
however many format violations it has (the `validate_citation_format`
status plays no role in the overall status). -/
theorem claim_C10 (bib : List EntryV) (cit : CitationV)
    (hwf : ∀ e ∈ bib, e.id ≠ "") :
    ((validateCitation bib cit).status = "invalid" ↔
      (validateCitation bib cit).matchedBibliography = none) ∧
    (∀ i ∈ (validateCitation bib cit).issues, i.severity = "error" →
      i.type = "missing_bibliography") ∧
    (∀ m ∈ (validateCitationFormat cit).2,
      (⟨"format", "warning", m⟩ : IssueV) ∈ (validateCitation bib cit).issues) ∧
    ((validateCitation bib cit).matchedBibliography ≠ none →
      (validateCitation bib cit).status = "valid" ∨
        (validateCitation bib cit).status = "warning") := by
  have hfiff := matchCitation_falsy_iff bib cit hwf
  unfold validateCitation
  dsimp only
  by_cases hf : pyFalsyOpt (matchCitationToBibliography bib cit).1 = true
  · rw [if_pos hf]
    have hnone := hfiff.mp hf
    refine ⟨?_, ?_, ?_, ?_⟩
    · rw [if_pos (by simp)]
      simp [hnone]
    · intro i hi hsev
      rcases List.mem_append.mp hi with h | h
      · rcases List.mem_map.mp h with ⟨m, _, rfl⟩
        simp at hsev
      · simp only [List.mem_singleton] at h
        rw [h]
    · intro m hmem
      exact List.mem_append_left _ (List.mem_map.mpr ⟨m, hmem, rfl⟩)
    · intro hne
      exact absurd hnone hne
  · rw [if_neg hf]
    have hne : (matchCitationToBibliography bib cit).1 ≠ none := by
      intro h0
      exact hf (by simp [pyFalsyOpt, h0])
    by_cases hlc : (matchCitationToBibliography bib cit).2 < mkRat 8 10
    · rw [if_pos hlc]
      have hany : (((validateCitationFormat cit).2.map fun m =>
          (⟨"format", "warning", m⟩ : IssueV)) ++
            [(⟨"low_confidence_match", "warning", "Low confidence match"⟩ : IssueV)]).any
            (fun i => decide (i.severity = "error")) = false := by
        rw [List.any_eq_false]
        intro i hi
        rcases List.mem_append.mp hi with h | h
        · rcases List.mem_map.mp h with ⟨m, _, rfl⟩
          simp
        · simp only [List.mem_singleton] at h
          subst h
          simp
      refine ⟨?_, ?_, ?_, ?_⟩
      · rw [if_neg (by simp [hany])]
        constructor
        · intro h
          split at h <;> exact absurd h (by decide)
        · intro h
          exact absurd h hne
      · intro i hi hsev
        rcases List.mem_append.mp hi with h | h
        · rcases List.mem_map.mp h with ⟨m, _, rfl⟩
          simp at hsev
        · simp only [List.mem_singleton] at h
          subst h
          simp at hsev
      · intro m hmem
        exact List.mem_append_left _ (List.mem_map.mpr ⟨m, hmem, rfl⟩)
      · intro _
        rw [if_neg (by simp [hany])]
        split
        · exact Or.inr rfl
        · exact Or.inl rfl
    · rw [if_neg hlc]
      have hany : (((validateCitationFormat cit).2.map fun m =>
          (⟨"format", "warning", m⟩ : IssueV))).any
            (fun i => decide (i.severity = "error")) = false := by
        rw [List.any_eq_false]
        intro i hi
        rcases List.mem_map.mp hi with ⟨m, _, rfl⟩
        simp
      refine ⟨?_, ?_, ?_, ?_⟩
      · rw [if_neg (by simp [hany])]
        constructor
        · intro h
          split at h <;> exact absurd h (by decide)
        · intro h
          exact absurd h hne
      · intro i hi hsev
        rcases List.mem_map.mp hi with ⟨m, _, rfl⟩
        simp at hsev
      · intro m hmem
        exact List.mem_map.mpr ⟨m, hmem, rfl⟩
      · intro _
        rw [if_neg (by simp [hany])]
        split
        · exact Or.inr rfl
        · exact Or.inl rfl

/-- Witness for claim C10: the status/match equivalence evaluated on a
concrete citation and bibliography. -/
theorem claim_C10_witness :
    (validateCitation bibC8
        { id := "c1", rawText := "(Smith, 2023)", type := "parenthetical",
          normalized := { authors := ["Smith"], year := "2023" } }).status = "invalid" ↔
      (validateCitation bibC8
        { id := "c1", rawText := "(Smith, 2023)", type := "parenthetical",
          normalized := { authors := ["Smith"], year := "2023" } }).matchedBibliography =
        none :=
  (claim_C10 bibC8
    { id := "c1", rawText := "(Smith, 2023)", type := "parenthetical",
      normalized := { authors := ["Smith"], year := "2023" } } (by decide)).1

/-- Claim C4 counterexample: a fully resolved `multiple` citation yields
`matched_bibliography = 'multiple_valid'`, a sentinel that is not the id of
any loaded bibliography entry (and not null), so the claim as stated fails. -/
theorem claim_C4_counterexample :
    (validateCitation bibC8 citC8).matchedBibliography = some "multiple_valid" ∧
    (∀ e ∈ bibC8, e.id ≠ "multiple_valid") ∧
    (validateCitation bibC8 citC8).matchedBibliography ≠ none := by
  refine ⟨by decide, by decide, by decide⟩

/-- Claim C4 (amended): `matched_bibliography` is null, the sentinel
`'multiple_valid'` (for a fully resolved multiple citation), or the id of
some entry present in the loaded bibliography; and the confidence is 0
whenever it is null. -/
theorem claim_C4_amended (bib : List EntryV) (cit : CitationV) :
    ((validateCitation bib cit).matchedBibliography = none ∨
      (validateCitation bib cit).matchedBibliography = some "multiple_valid" ∨
      ∃ e ∈ bib, (validateCitation bib cit).matchedBibliography = some e.id) ∧
    ((validateCitation bib cit).matchedBibliography = none →
      (validateCitation bib cit).confidence = 0) := by
  constructor
  · rcases hr : (validateCitation bib cit).matchedBibliography with _ | x
    · exact Or.inl rfl
    · have hr' : (matchCitationToBibliography bib cit).1 = some x := hr
      rcases matchCitation_mem hr' with h | ⟨e, he, rfl⟩
      · exact Or.inr (Or.inl (by rw [h]))
      · exact Or.inr (Or.inr ⟨e, he, rfl⟩)
  · intro h
    have h' : (matchCitationToBibliography bib cit).1 = none := h
    show (if pyFalsyOpt (matchCitationToBibliography bib cit).1 = true then 0
      else (matchCitationToBibliography bib cit).2) = 0
    rw [if_pos (by simp [pyFalsyOpt, h'])]

/-- Claim C1 counterexample: with the author pair `["Smith", "et al."]` the
exact composite key `smith_2023` hits (its candidate list is nonempty), yet
the code still falls back to the full scan and returns a different entry —
the claim's rule ("only if no exact key hits does it fall back", returning
the best same-key candidate) predicts the other result. -/
theorem claim_C1_counterexample :
    findSingleMatch bibC1 ["Smith", "et al."] "2023" =
      (some "bbbbbbbbbbbb", mkRat 10 11) ∧
    findSingleMatchClaimSpec bibC1 ["Smith", "et al."] "2023" =
      (some "aaaaaaaaaaaa", 0) ∧
    indexEntries bibC1 (authorYearKey "Smith" "2023") ≠ [] ∧
    findSingleMatch bibC1 ["Smith", "et al."] "2023" ≠
      findSingleMatchClaimSpec bibC1 ["Smith", "et al."] "2023" := by
  refine ⟨?_, ?_, ?_, ?_⟩ <;> decide

/-- Claim C1 (amended): the single-match search first runs the exact
composite-key phase; that phase comes up empty exactly when every same-key
candidate (over all non-`et al.` citation authors) has author-set fuzzy
similarity 0.  When it finds a candidate with positive similarity, that
result — a same-key candidate of maximal similarity — is returned and no
fallback happens; only when every exact-key candidate scores 0 does the
full-bibliography fallback run, requiring exact year equality and
similarity above 0.7 and keeping a best-scoring candidate, with `(null, 0)`
when nothing qualifies. -/
theorem claim_C1_amended (bib : List EntryV) (authors : List String) (year : String)
    (hwf : ∀ e ∈ bib, e.id ≠ "") (_ha : authors ≠ []) (_hy : year ≠ "") :
    ((exactPhase bib authors year).1 = none ↔
      ∀ a ∈ authors, a ≠ "et al." → ∀ e ∈ indexEntries bib (authorYearKey a year),
        fuzzyMatchAuthors authors e.parsed.authors = 0) ∧
    ((exactPhase bib authors year).1 ≠ none →
      findSingleMatch bib authors year = exactPhase bib authors year ∧
      ∃ a ∈ authors, a ≠ "et al." ∧ ∃ e ∈ indexEntries bib (authorYearKey a year),
        exactPhase bib authors year =
          (some e.id, fuzzyMatchAuthors authors e.parsed.authors) ∧
        0 < fuzzyMatchAuthors authors e.parsed.authors ∧
        ∀ a' ∈ authors, a' ≠ "et al." →
          ∀ e' ∈ indexEntries bib (authorYearKey a' year),
            fuzzyMatchAuthors authors e'.parsed.authors ≤
              fuzzyMatchAuthors authors e.parsed.authors) ∧
    ((exactPhase bib authors year).1 = none →
      findSingleMatch bib authors year = fallbackScan bib authors year (none, 0) ∧
      (findSingleMatch bib authors year = (none, 0) ∨
        ∃ e ∈ bib, findSingleMatch bib authors year =
          (some e.id, fuzzyMatchAuthors authors e.parsed.authors) ∧
          e.parsed.year = year ∧
          mkRat 7 10 < fuzzyMatchAuthors authors e.parsed.authors) ∧
      ∀ e ∈ bib, e.parsed.year = year →
        mkRat 7 10 < fuzzyMatchAuthors authors e.parsed.authors →
        fuzzyMatchAuthors authors e.parsed.authors ≤
          (findSingleMatch bib authors year).2) := by
  have hEq := exactPhase_eq_bestFold bib authors year
  have hShape := hEq ▸ bestFold_shape
    (fun e => fuzzyMatchAuthors authors e.parsed.authors) (fun _ => true)
    ((authors.filter (· ≠ "et al.")).flatMap fun a =>
      indexEntries bib (authorYearKey a year)) (none, 0)
  have hCand : ∀ e, e ∈ ((authors.filter (· ≠ "et al.")).flatMap fun a =>
      indexEntries bib (authorYearKey a year)) ↔
      ∃ a ∈ authors, a ≠ "et al." ∧ e ∈ indexEntries bib (authorYearKey a year) := by
    intro e
    rw [List.mem_flatMap]
    constructor
    · rintro ⟨a, haf, he⟩
      rcases List.mem_filter.mp haf with ⟨hmem, hne⟩
      exact ⟨a, hmem, by simpa using hne, he⟩
    · rintro ⟨a, hmem, hne, he⟩
      exact ⟨a, List.mem_filter.mpr ⟨hmem, by simpa using hne⟩, he⟩
  refine ⟨?_, ?_, ?_⟩
  · constructor
    · intro hnone a hamem hane e hemem
      rcases hShape with h0 | ⟨e', _, _, heq', _⟩
      · have hself := (hEq ▸ bestFold_eq_self_iff
          (fun e => fuzzyMatchAuthors authors e.parsed.authors) (fun _ => true)
          ((authors.filter (· ≠ "et al.")).flatMap fun a =>
            indexEntries bib (authorYearKey a year)) (none, 0)).mp h0
        have hle := hself e ((hCand e).mpr ⟨a, hamem, hane, hemem⟩) rfl
        exact le_antisymm hle (fuzzyMatchAuthors_nonneg _ _)
      · rw [heq'] at hnone
        exact absurd hnone (by simp)
    · intro hall
      rcases hShape with h0 | ⟨e, hemem, _, heq, hlt⟩
      · rw [h0]
      · rcases (hCand e).mp hemem with ⟨a, hamem, hane, he⟩
        rw [hall a hamem hane e he] at hlt
        exact absurd hlt (by norm_num)
  · intro hne
    rcases hShape with h0 | ⟨e, hemem, _, heq, hlt⟩
    · rw [h0] at hne
      exact absurd rfl hne
    · rcases (hCand e).mp hemem with ⟨a, hamem, hane, he⟩
      have hid : e.id ≠ "" := hwf e (indexEntries_mem he)
      have hfs : findSingleMatch bib authors year = exactPhase bib authors year := by
        unfold findSingleMatch
        dsimp only
        rw [if_neg (by rw [heq]; simp [pyFalsyOpt, hid])]
      have hub := hEq ▸ bestFold_ub
        (fun e => fuzzyMatchAuthors authors e.parsed.authors) (fun _ => true)
        ((authors.filter (· ≠ "et al.")).flatMap fun a =>
          indexEntries bib (authorYearKey a year)) (none, 0)
      refine ⟨hfs, a, hamem, hane, e, he, heq, hlt, ?_⟩
      intro a' ha'mem ha'ne e' he'mem
      have := hub e' ((hCand e').mpr ⟨a', ha'mem, ha'ne, he'mem⟩) rfl
      rw [heq] at this
      exact this
  · intro hnone
    have hexact0 : exactPhase bib authors year = (none, 0) := by
      rcases hShape with h0 | ⟨e, _, _, heq, _⟩
      · exact h0
      · rw [heq] at hnone
        exact absurd hnone (by simp)
    have hfs : findSingleMatch bib authors year =
        fallbackScan bib authors year (none, 0) := by
      unfold findSingleMatch
      dsimp only
      rw [if_pos (by rw [hexact0]; simp [pyFalsyOpt]), hexact0]
    have hfbShape := bestFold_shape
      (fun e => fuzzyMatchAuthors authors e.parsed.authors)
      (fun e => decide (e.parsed.year = year) &&
        decide (mkRat 7 10 < fuzzyMatchAuthors authors e.parsed.authors))
      bib (none, 0)
    refine ⟨hfs, ?_, ?_⟩
    · rcases hfbShape with h0 | ⟨e, hemem, hx, heq, _⟩
      · exact Or.inl (by rw [hfs]; exact h0)
      · have hx' : decide (e.parsed.year = year) = true ∧
            decide (mkRat 7 10 < fuzzyMatchAuthors authors e.parsed.authors) = true := by
          simpa using hx
        exact Or.inr ⟨e, hemem, by rw [hfs]; exact heq,
          of_decide_eq_true hx'.1, of_decide_eq_true hx'.2⟩
    · intro e hemem hyr hgt
      have := bestFold_ub
        (fun e => fuzzyMatchAuthors authors e.parsed.authors)
        (fun e => decide (e.parsed.year = year) &&
          decide (mkRat 7 10 < fuzzyMatchAuthors authors e.parsed.authors))
        bib (none, 0) e hemem
        (by simp [hyr, hgt])
      rw [hfs]
      exact this

/-- Witness for claim C1 (amended): the exact-phase characterization
applied to a concrete bibliography and author list. -/
theorem claim_C1_amended_witness :
    (exactPhase bibC1 ["Smith"] "2023").1 = none ↔
      ∀ a ∈ ["Smith"], a ≠ "et al." →
        ∀ e ∈ indexEntries bibC1 (authorYearKey a "2023"),
          fuzzyMatchAuthors ["Smith"] e.parsed.authors = 0 :=
  (claim_C1_amended bibC1 ["Smith"] "2023" (by decide) (by decide) (by decide)).1

/-- Witness for claim C4 (amended): the zero-confidence conclusion on a
concrete unmatched citation. -/
theorem claim_C4_amended_witness :
    (validateCitation [] {}).confidence = 0 :=
  (claim_C4_amended [] {}).2 (by decide)

instance {α β : Type} [DecidableEq α] [DecidableEq β] : DecidableEq (Except α β) :=
  fun a b =>
    match a, b with
    | .ok x, .ok y =>
      if h : x = y then isTrue (congrArg Except.ok h)
      else isFalse fun hc => h (Except.ok.inj hc)
    | .ok _, .error _ => isFalse fun hc => Except.noConfusion hc
    | .error _, .ok _ => isFalse fun hc => Except.noConfusion hc
    | .error x, .error y =>
      if h : x = y then isTrue (congrArg Except.error h)
      else isFalse fun hc => h (Except.error.inj hc)

/-- Concrete parsers for the claim C9 witness: `c9P` raises exactly on the
line `"bad"`, `c9P'` never raises; they agree on every other line. -/
def c9Ok : ParsedB :=
  { authors := [{ lastName := "A" }], year := some "2001", title := some "T" }

def c9P : String → Except String ParsedB := fun s =>
  if s = "bad" then .error "boom" else .ok c9Ok

def c9P' : String → Except String ParsedB := fun _ => .ok c9Ok

/-- Witness for claim C9: one good line, then a line whose parse raises. -/
theorem claim_C9_witness :
    ∃ e : BibEntryB,
      loadAndParseLines c9P (["A. (2001). T."] ++ "bad" :: []) =
        processLines c9P' 1 ["A. (2001). T."] ++
          e :: processLines c9P' (["A. (2001). T."].length + 2) [] ∧
      ("Parsing error: " ++ "boom") ∈ e.errors ∧
      e.validationStatus = "invalid" ∧
      e.rawText = pyStrip "bad" ∧
      e.lineNumber = ["A. (2001). T."].length + 1 :=
  claim_C9 c9P c9P' ["A. (2001). T."] [] "bad" "boom"
    (by decide) (by decide) (by decide) (by decide)

end CRV

-- sanity checks on the string layer and the sequence matcher
example : CRV.normalizeV "  José   GARCÍA " = "josé garcía" := by decide
example : CRV.containsSub "hello world" "lo wo" = true := by decide
example : CRV.containsSub "hello" "he llo" = false := by decide
example : CRV.pyStrip "  a b  " = "a b" := by decide
example : (mkRat 2 5 < mkRat 4 5) := by decide
example : CRV.calcSimilarity "smith" "smith" = 1 := by decide
example : CRV.calcSimilarity "smith" "jones" = mkRat 1 5 := by decide
example : CRV.calcSimilarity "smith" "smithe" = mkRat 10 11 := by decide
example : CRV.calcSimilarity "José" "Jose" = mkRat 3 4 := by decide
example : CRV.calcSimilarity "smith" "uvw" = 0 := by decide
example : CRV.ratioQ "garcía lópez".data "garcia lopez".data = mkRat 5 6 := by decide
example : CRV.ratioQ "abcabc".data "cabca".data = mkRat 8 11 := by decide
example : CRV.ratioQ "banana".data "ananab".data = mkRat 5 6 := by decide
example : CRV.ratioQ "xyxy".data "yxyx".data = mkRat 3 4 := by decide
example : CRV.ratioQ "".data "".data = 1 := by decide
example : CRV.ratioQ "a".data "".data = 0 := by decide

example :
    CRV.findSingleMatch CRV.bibC1 ["Smith", "et al."] "2023" =
      (some "bbbbbbbbbbbb", mkRat 10 11) := by decide
example : CRV.indexEntries CRV.bibC1 "smith_2023" ≠ [] := by decide
example :
    CRV.fuzzyMatchAuthors ["Smith"] [⟨"Smith"⟩] = 1 := by decide

example : CRV.md5Hex (CRV.utf8Bytes "") = "d41d8cd98f00b204e9800998ecf8427e" := by decide
example : CRV.md5Hex (CRV.utf8Bytes "abc") = "900150983cd24fb0d6963f7d28e17f72" := by decide
example : CRV.md5Hex (CRV.utf8Bytes "(Smith, 2023)_file.md:3:10") =
    "0b2d98e4425337ceece2a37d92657ebd" := by decide
example : CRV.md5Hex (CRV.utf8Bytes "José (2023)") =
    "3791f4b473adffe011ad13d2f4511b94" := by decide

example :
    CRV.detectEntryType "Smith, J. (2020). Title. In Journal, 15(3)." = "journal_article" := by
  decide
example :
    CRV.detectEntryType "Smith, J. (2023). Article. Journal, 1(1), 1-10." = "journal_article" := by
  decide
example : CRV.detectEntryType "Smith, J. (2023). _Book Title_. Publisher." = "unknown" := by
  decide
example : CRV.detectEntryType "Smith, J. _Book Title_. Publisher." = "book" := by decide
example :
    CRV.detectEntryType "Pérez, L. (2019). Chapter. In B. Editor (Ed.), _Book_." = "book_chapter" := by
  decide
example : CRV.detectEntryType "Anon (2001). Notes." = "unknown" := by decide
